import Mathlib

/-!
Verification development for the CVAT canvas view
(src/cvat-canvas/src/typescript/canvasView.ts).

The TypeScript class CanvasViewImpl is shallowly embedded here:
* object states, drawn states and the drawn-state store become plain
  Lean structures and association lists;
* the scene/DOM mutations performed by the reconciliation pass
  (setupObjects / addObjects / updateObjects / deleteObjects) and by the
  activation machinery (activate / deactivate / activateShape) are made
  observable as an emitted list of SceneOp values, while the mutable
  fields of the class (drawnStates, svgShapes, svgTexts, activeElement)
  are threaded through a ViewState record;
* the mode assignments of CanvasViewImpl.notify become a transition
  function on the Mode enumeration;
* the completion callbacks (onDrawDone / onEditDone) become functions
  returning the list of dispatched events together with the mode and
  controller notifications they issue.
-/

namespace CanvasView

/-- The interaction modes of canvasModel.ts (enum Mode), as consumed by
canvasView.ts. -/
inductive Mode where
  | idle
  | drag
  | resize
  | draw
  | edit
  | merge
  | split
  | group
  | dragCanvas
  | zoomCanvas
  | interact
  | selectRegion
deriving DecidableEq, Repr

/-- ActiveElement of canvasModel.ts: at most one active object and, inside
it, at most one active attribute. -/
structure ActiveElement where
  clientID : Option Nat
  attributeID : Option Nat
deriving DecidableEq, Repr

/-- A skeleton element as it appears in state.elements: a child object
state scoped to one skeleton node.  Skeleton elements are leaf shapes
(addSkeleton only renders elements whose shapeType is points), so one
level of nesting is modelled. -/
structure ElementState where
  clientID : Nat
  shapeType : String
  points : List Int
  updated : Nat
  frame : Nat
  hidden : Bool
  outside : Bool
  occluded : Bool
deriving DecidableEq, Repr

/-- The fields of an upstream ObjectState that canvasView.ts reads in the
reconciliation and activation paths. -/
structure ObjectState where
  clientID : Nat
  shapeType : String
  points : List Int
  rotation : Int
  updated : Nat
  frame : Nat
  hidden : Bool
  outside : Bool
  lock : Bool
  pinned : Bool
  occluded : Bool
  zOrder : Int
  elements : List ElementState
deriving DecidableEq, Repr

/-- DrawnState (shared.ts): the snapshot of an ObjectState taken by
CanvasViewImpl.saveState at the moment the object was last synchronized. -/
structure DrawnState where
  clientID : Nat
  shapeType : String
  points : List Int
  rotation : Int
  updated : Nat
  frame : Nat
  hidden : Bool
  outside : Bool
  lock : Bool
  pinned : Bool
  occluded : Bool
  zOrder : Int
  elements : List ElementState
deriving DecidableEq, Repr

/-- saveState for one skeleton element (the recursive call of saveState on
a leaf element; its own elements field is null in the source). -/
def saveElement (e : ElementState) : ElementState := e

/-- CanvasViewImpl.saveState: copy the observable fields of a state into a
fresh DrawnState; for skeletons the elements are snapshotted as well. -/
def saveState (st : ObjectState) : DrawnState :=
  { clientID := st.clientID
    shapeType := st.shapeType
    points := st.points
    rotation := st.rotation
    updated := st.updated
    frame := st.frame
    hidden := st.hidden
    outside := st.outside
    lock := st.lock
    pinned := st.pinned
    occluded := st.occluded
    zOrder := st.zOrder
    elements := if st.shapeType = "skeleton" then st.elements.map saveElement else [] }

/-- The drawnStates field (Record number DrawnState), as an association
list keyed by clientID. -/
abbrev Store := List (Nat × DrawnState)

/-- this.drawnStates[id] lookup. -/
def storeLookup (store : Store) (k : Nat) : Option DrawnState :=
  match store with
  | [] => none
  | (k', v) :: rest => if k' = k then some v else storeLookup rest k

/-- Object.keys(this.drawnStates). -/
def storeKeys (store : Store) : List Nat :=
  store.map Prod.fst

/-- this.drawnStates[id] = v (overwrite in place, append when absent). -/
def storeInsert (store : Store) (k : Nat) (v : DrawnState) : Store :=
  match store with
  | [] => [(k, v)]
  | (k', w) :: rest => if k' = k then (k, v) :: rest else (k', w) :: storeInsert rest k v

/-- delete this.drawnStates[id]. -/
def storeErase (store : Store) (k : Nat) : Store :=
  match store with
  | [] => []
  | (k', v) :: rest => if k' = k then storeErase rest k else (k', v) :: storeErase rest k

/-- Membership test for the key sets modelling svgShapes / svgTexts. -/
def setMem (l : List Nat) (k : Nat) : Bool :=
  l.contains k

/-- Key-set insertion for svgShapes / svgTexts. -/
def setInsert (l : List Nat) (k : Nat) : List Nat :=
  if k ∈ l then l else l ++ [k]

/-- Key-set removal for svgShapes / svgTexts. -/
def setErase (l : List Nat) (k : Nat) : List Nat :=
  l.filter (fun x => x ≠ k)

theorem storeKeys_cons (a : Nat) (v : DrawnState) (rest : Store) :
    storeKeys ((a, v) :: rest) = a :: storeKeys rest := rfl

theorem storeLookup_erase (store : Store) (k k' : Nat) :
    storeLookup (storeErase store k) k' =
      if k' = k then none else storeLookup store k' := by
  induction store with
  | nil => simp [storeErase, storeLookup]
  | cons p rest ih =>
    obtain ⟨a, v⟩ := p
    rw [storeErase]
    by_cases hak : a = k
    · rw [if_pos hak, ih]
      by_cases hk' : k' = k
      · rw [if_pos hk', if_pos hk']
      · rw [if_neg hk', if_neg hk', storeLookup, if_neg (by omega : ¬a = k')]
    · rw [if_neg hak, storeLookup]
      by_cases hax : a = k'
      · rw [if_pos hax, if_neg (by omega : ¬k' = k), storeLookup, if_pos hax]
      · rw [if_neg hax, ih]
        by_cases hk' : k' = k
        · rw [if_pos hk', if_pos hk']
        · rw [if_neg hk', if_neg hk', storeLookup, if_neg hax]

theorem storeLookup_insert (store : Store) (k k' : Nat) (v : DrawnState) :
    storeLookup (storeInsert store k v) k' =
      if k' = k then some v else storeLookup store k' := by
  induction store with
  | nil =>
    by_cases h : k = k'
    · subst h
      simp [storeInsert, storeLookup]
    · simp [storeInsert, storeLookup, h]
      rw [if_neg (by omega : ¬k' = k)]
  | cons p rest ih =>
    obtain ⟨a, w⟩ := p
    rw [storeInsert]
    by_cases hak : a = k
    · rw [if_pos hak, storeLookup, storeLookup]
      by_cases hk' : k = k'
      · rw [if_pos hk', if_pos hk'.symm]
      · rw [if_neg hk', if_neg (by omega : ¬k' = k), if_neg (by omega : ¬a = k')]
    · rw [storeLookup, if_neg hak, storeLookup]
      by_cases hax : a = k'
      · rw [if_pos hax, if_pos hax, if_neg (by omega : ¬k' = k)]
      · rw [if_neg hax, if_neg hax, ih]

theorem storeKeys_erase_sub (store : Store) (k : Nat) :
    storeKeys (storeErase store k) ⊆ storeKeys store := by
  induction store with
  | nil =>
    rw [storeErase]
    exact fun x hx => hx
  | cons p rest ih =>
    obtain ⟨a, v⟩ := p
    rw [storeErase]
    by_cases hak : a = k
    · rw [if_pos hak]
      intro x hx
      rw [storeKeys_cons]
      exact List.mem_cons_of_mem _ (ih hx)
    · rw [if_neg hak]
      intro x hx
      rw [storeKeys_cons] at hx ⊢
      rcases List.mem_cons.mp hx with h | h
      · exact List.mem_cons.mpr (Or.inl h)
      · exact List.mem_cons.mpr (Or.inr (ih h))

theorem storeKeys_insert_sub (store : Store) (k : Nat) (v : DrawnState) :
    storeKeys (storeInsert store k v) ⊆ k :: storeKeys store := by
  induction store with
  | nil =>
    rw [storeInsert]
    intro x hx
    rw [storeKeys_cons] at hx
    rcases List.mem_cons.mp hx with h | h
    · exact List.mem_cons.mpr (Or.inl h)
    · cases h
  | cons p rest ih =>
    obtain ⟨a, w⟩ := p
    rw [storeInsert]
    by_cases hak : a = k
    · rw [if_pos hak]
      intro x hx
      rw [storeKeys_cons] at hx ⊢
      rcases List.mem_cons.mp hx with h | h
      · exact List.mem_cons.mpr (Or.inl h)
      · exact List.mem_cons.mpr (Or.inr (List.mem_cons.mpr (Or.inr h)))
    · rw [if_neg hak]
      intro x hx
      rw [storeKeys_cons] at hx
      rw [storeKeys_cons]
      rcases List.mem_cons.mp hx with h | h
      · exact List.mem_cons.mpr (Or.inr (List.mem_cons.mpr (Or.inl h)))
      · rcases List.mem_cons.mp (ih h) with hh | hh
        · exact List.mem_cons.mpr (Or.inl hh)
        · exact List.mem_cons.mpr (Or.inr (List.mem_cons.mpr (Or.inr hh)))

/-- The scene/DOM/handler mutations performed by the reconciliation and
activation code, abstracted as observable operations.  Each constructor
stands for one primitive-mutating block of the source; blocks that only
touch the object identified by a clientID carry that clientID. -/
inductive SceneOp where
  | deactivateAttrOp (clientID attributeID : Nat)
  | deactivateShapeOp (clientID : Nat)
  | deleteTextOp (clientID : Nat)
  | deleteShapeOp (clientID : Nat)
  | addShapeOp (clientID : Nat) (shapeType : String)
  | addTextOp (clientID : Nat)
  | updateShapeOp (clientID : Nat)
  | pinnedReactivateOp (clientID : Nat)
  | sortOp
  | pointerEventsStyleOp (clientID : Nat)
  | activateTextOp (clientID : Nat)
  | activatedClassOp (clientID : Nat)
  | activateAttrOp (clientID attributeID : Nat)
  | dispatchActivatedOp (clientID : Nat)
  | autoborderUpdateOp
deriving DecidableEq, Repr

/-- The mutable fields of CanvasViewImpl that the reconciliation and
activation paths read and write.  svgShapes and svgTexts are tracked as
key sets; controllerActiveElement is this.controller.activeElement,
which those paths only read.  displayAllText and forceDisableEditing are
the configuration switches they consult. -/
structure ViewState where
  drawnStates : Store
  svgShapes : List Nat
  svgTexts : List Nat
  activeElement : ActiveElement
  controllerActiveElement : ActiveElement
  displayAllText : Bool
  forceDisableEditing : Bool
deriving DecidableEq, Repr

/-- CanvasViewImpl.stateIsLocked: state.lock, or editing force-disabled by
configuration. -/
def stateIsLocked (s : ViewState) (st : ObjectState) : Bool :=
  st.lock || s.forceDisableEditing

/-- CanvasViewImpl.deactivateAttribute: when an object and an attribute
are both active, clear the attribute highlight and null attributeID. -/
def deactivateAttribute (s : ViewState) : ViewState × List SceneOp :=
  match s.activeElement.clientID, s.activeElement.attributeID with
  | some clientID, some attributeID =>
    ({ s with activeElement := { s.activeElement with attributeID := none } },
      [SceneOp.deactivateAttrOp clientID attributeID])
  | _, _ => (s, [])

/-- CanvasViewImpl.deactivateShape: when an object is active, strip its
activation affordances (classes, draggable, selectize, resize), delete
its text when texts are not displayed for all, re-sort the paint order
and null the active clientID. -/
def deactivateShape (s : ViewState) : ViewState × List SceneOp :=
  match s.activeElement.clientID with
  | none => (s, [])
  | some clientID =>
    let textDeleted := clientID ∈ s.svgTexts ∧ s.displayAllText = false
    (({ s with
        svgTexts := if textDeleted then setErase s.svgTexts clientID else s.svgTexts,
        activeElement := { s.activeElement with clientID := none } }),
      [SceneOp.deactivateShapeOp clientID] ++
        (if textDeleted then [SceneOp.deleteTextOp clientID] else []) ++
        [SceneOp.sortOp])

/-- CanvasViewImpl.deactivate: deactivate attribute, then shape. -/
def deactivate (s : ViewState) : ViewState × List SceneOp :=
  let r1 := deactivateAttribute s
  let r2 := deactivateShape r1.1
  (r2.1, r1.2 ++ r2.2)

/-- CanvasViewImpl.activateAttribute: highlight the attribute span when
the object has a text primitive, recording the attribute as active. -/
def activateAttribute (s : ViewState) (clientID attributeID : Nat) :
    ViewState × List SceneOp :=
  if clientID ∈ s.svgTexts then
    ({ s with activeElement := { s.activeElement with attributeID := some attributeID } },
      [SceneOp.activateAttrOp clientID attributeID])
  else (s, [])

/-- CanvasViewImpl.activateShape: look the state up in
this.controller.objects; a missing state returns before any scene
mutation.  A found points shape first has its pointer-events style set;
hidden/outside states then return; otherwise the text primitive is
revealed/created, and unless the state is locked the activation
affordances are installed and canvas.activated is dispatched. -/
def activateShape (s : ViewState) (objects : List ObjectState) (clientID : Nat) :
    ViewState × List SceneOp :=
  match objects.find? (fun st => st.clientID == clientID) with
  | none => (s, [])
  | some st =>
    let o1 := if st.shapeType = "points" then [SceneOp.pointerEventsStyleOp clientID] else []
    if st.hidden || st.outside then (s, o1)
    else
      let s1 := { s with svgTexts := setInsert s.svgTexts clientID }
      let o2 := o1 ++ [SceneOp.activateTextOp clientID]
      if stateIsLocked s st then (s1, o2)
      else
        (s1, o2 ++ [SceneOp.activatedClassOp clientID, SceneOp.dispatchActivatedOp clientID])

/-- The first block of CanvasViewImpl.activate: when another element is
already active, deactivate it (a different element requested) or only
its attribute (same element, different attribute requested). -/
def activateBlock1 (s : ViewState) (ae : ActiveElement) : ViewState × List SceneOp :=
  match s.activeElement.clientID with
  | some _ =>
    if s.activeElement.clientID ≠ ae.clientID then deactivate s
    else if s.activeElement.attributeID ≠ ae.attributeID then deactivateAttribute s
    else (s, [])
  | none => (s, [])

/-- The second block of CanvasViewImpl.activate: when the requested
clientID is not the active one, run activateShape and record the
clientID as active. -/
def activateBlock2 (s : ViewState) (objects : List ObjectState) (clientID : Nat) :
    ViewState × List SceneOp :=
  if s.activeElement.clientID ≠ some clientID then
    let ra := activateShape s objects clientID
    ({ ra.1 with activeElement := { ra.1.activeElement with clientID := some clientID } },
      ra.2)
  else (s, [])

/-- The third block of CanvasViewImpl.activate: when an attribute is
requested and not already active, run activateAttribute. -/
def activateBlock3 (s : ViewState) (clientID : Nat) (attributeID : Option Nat) :
    ViewState × List SceneOp :=
  match attributeID with
  | some a =>
    if s.activeElement.attributeID ≠ some a then activateAttribute s clientID a
    else (s, [])
  | none => (s, [])

/-- CanvasViewImpl.activate: deactivate the previous shape (or only its
attribute) when a different element (or attribute) is requested, then
activate the requested shape and attribute if not already active. -/
def activate (s : ViewState) (objects : List ObjectState) (ae : ActiveElement) :
    ViewState × List SceneOp :=
  let r1 := activateBlock1 s ae
  match ae.clientID with
  | some clientID =>
    let r2 := activateBlock2 r1.1 objects clientID
    let r3 := activateBlock3 r2.1 clientID ae.attributeID
    (r3.1, r1.2 ++ r2.2 ++ r3.2)
  | none => (r1.1, r1.2)

/-- What deleteObjects reads from one skeleton element: its identifier
and shape type (elements are leaf shapes, their own elements are null). -/
structure ElementSpec where
  clientID : Nat
  shapeType : String
deriving DecidableEq, Repr

/-- What deleteObjects reads from one state: identifier, shape type, and
(for skeletons) the elements it recurses into.  Both ObjectStates
(updated skeletons) and DrawnStates (deleted entries) are passed to
deleteObjects in the source. -/
structure DeleteSpec where
  clientID : Nat
  shapeType : String
  elements : List ElementSpec
deriving DecidableEq, Repr

def ObjectState.toDeleteSpec (st : ObjectState) : DeleteSpec :=
  ⟨st.clientID, st.shapeType, st.elements.map (fun e => ⟨e.clientID, e.shapeType⟩)⟩

def DrawnState.toDeleteSpec (ds : DrawnState) : DeleteSpec :=
  ⟨ds.clientID, ds.shapeType, ds.elements.map (fun e => ⟨e.clientID, e.shapeType⟩)⟩

/-- The svgTexts part of deleteObjects for one identifier. -/
def deleteTextPart (s : ViewState) (clientID : Nat) : ViewState × List SceneOp :=
  if clientID ∈ s.svgTexts then
    ({ s with svgTexts := setErase s.svgTexts clientID }, [SceneOp.deleteTextOp clientID])
  else (s, [])

/-- The svgShapes part of deleteObjects for one identifier (fire remove,
detach listeners, remove the primitive). -/
def deleteShapePart (s : ViewState) (clientID : Nat) : ViewState × List SceneOp :=
  if clientID ∈ s.svgShapes then
    ({ s with svgShapes := setErase s.svgShapes clientID }, [SceneOp.deleteShapeOp clientID])
  else (s, [])

/-- The drawnStates part of deleteObjects for one identifier. -/
def deleteStorePart (s : ViewState) (clientID : Nat) : ViewState :=
  { s with drawnStates := storeErase s.drawnStates clientID }

/-- The recursive deleteObjects call on one skeleton element: text, shape
and store parts for a leaf (elements never have their own elements). -/
def deleteElement (s : ViewState) (e : ElementSpec) : ViewState × List SceneOp :=
  let r1 := deleteTextPart s e.clientID
  let r2 := deleteShapePart r1.1 e.clientID
  (deleteStorePart r2.1 e.clientID, r1.2 ++ r2.2)

def deleteElements : ViewState → List ElementSpec → ViewState × List SceneOp
  | s, [] => (s, [])
  | s, e :: rest =>
    let r1 := deleteElement s e
    let r2 := deleteElements r1.1 rest
    (r2.1, r1.2 ++ r2.2)

/-- CanvasViewImpl.deleteObjects over one state: delete its text, recurse
into skeleton elements, remove its shape primitive, drop its
DrawnState. -/
def deleteOne (s : ViewState) (sp : DeleteSpec) : ViewState × List SceneOp :=
  let r1 := deleteTextPart s sp.clientID
  let r2 := if sp.shapeType = "skeleton" then deleteElements r1.1 sp.elements else (r1.1, [])
  let r3 := deleteShapePart r2.1 sp.clientID
  (deleteStorePart r3.1 sp.clientID, r1.2 ++ r2.2 ++ r3.2)

/-- CanvasViewImpl.deleteObjects. -/
def deleteObjects : ViewState → List DeleteSpec → ViewState × List SceneOp
  | s, [] => (s, [])
  | s, sp :: rest =>
    let r1 := deleteOne s sp
    let r2 := deleteObjects r1.1 rest
    (r2.1, r1.2 ++ r2.2)

/-- The shape types CanvasViewImpl.addObjects can create; any other
shapeType hits the trailing continue and is skipped entirely — in
particular no DrawnState is saved for it. -/
def recognizedShapeTypes : List String :=
  ["rectangle", "skeleton", "polygon", "polyline", "points", "ellipse", "cuboid"]

/-- CanvasViewImpl.addObjects over one state: create the primitive for a
recognized shapeType (addSkeleton also registers a circle primitive per
points element), add a text when displayAllText is on, and save a fresh
DrawnState; an unrecognized shapeType is skipped. -/
def addOne (s : ViewState) (st : ObjectState) : ViewState × List SceneOp :=
  if st.shapeType ∈ recognizedShapeTypes then
    let shapes1 := setInsert s.svgShapes st.clientID
    let shapes2 :=
      if st.shapeType = "skeleton" then
        (st.elements.filter (fun e => e.shapeType = "points")).foldl
          (fun acc e => setInsert acc e.clientID) shapes1
      else shapes1
    ({ s with
        svgShapes := shapes2,
        svgTexts := if s.displayAllText then setInsert s.svgTexts st.clientID else s.svgTexts,
        drawnStates := storeInsert s.drawnStates st.clientID (saveState st) },
      [SceneOp.addShapeOp st.clientID st.shapeType] ++
        (if s.displayAllText then [SceneOp.addTextOp st.clientID] else []))
  else (s, [])

/-- CanvasViewImpl.addObjects. -/
def addObjects : ViewState → List ObjectState → ViewState × List SceneOp
  | s, [] => (s, [])
  | s, st :: rest =>
    let r1 := addOne s st
    let r2 := addObjects r1.1 rest
    (r2.1, r1.2 ++ r2.2)

/-- CanvasViewImpl.updateObjects over one state: patch the primitive
in place (visibility class, z-order, occlusion, geometry, text, colors
— all scoped to state.clientID and represented by updateShapeOp), then
replace the stored DrawnState with a fresh snapshot.  A pinned-flag flip
while an element is active triggers a deactivate/reactivate of that
element (pinnedReactivateOp; within setupObjects the active element has
already been cleared, so this branch cannot fire there). -/
def updateOne (s : ViewState) (st : ObjectState) : ViewState × List SceneOp :=
  match storeLookup s.drawnStates st.clientID with
  | none => (s, [])
  | some ds =>
    ({ s with drawnStates := storeInsert s.drawnStates st.clientID (saveState st) },
      (if ds.pinned ≠ st.pinned ∧ s.activeElement.clientID ≠ none then
        [SceneOp.pinnedReactivateOp st.clientID]
      else []) ++ [SceneOp.updateShapeOp st.clientID])

/-- CanvasViewImpl.updateObjects. -/
def updateObjects : ViewState → List ObjectState → ViewState × List SceneOp
  | s, [] => (s, [])
  | s, st :: rest =>
    let r1 := updateOne s st
    let r2 := updateObjects r1.1 rest
    (r2.1, r1.2 ++ r2.2)

/-- The created test of setupObjects: the identifier has no DrawnState. -/
def createdTest (store : Store) (st : ObjectState) : Bool :=
  (storeLookup store st.clientID).isNone

/-- The updated test of setupObjects: a DrawnState exists and its updated
version or its frame differs (raw field equality is not consulted). -/
def updatedTest (store : Store) (st : ObjectState) : Bool :=
  match storeLookup store st.clientID with
  | none => false
  | some ds => decide (ds.updated ≠ st.updated) || decide (ds.frame ≠ st.frame)

def createdOf (store : Store) (states : List ObjectState) : List ObjectState :=
  states.filter (createdTest store)

def updatedOf (store : Store) (states : List ObjectState) : List ObjectState :=
  states.filter (updatedTest store)

def clientIDs (states : List ObjectState) : List Nat :=
  states.map ObjectState.clientID

/-- The deleted list of setupObjects: DrawnStates whose identifier is
absent from the incoming list. -/
def deletedOf (store : Store) (states : List ObjectState) : List DrawnState :=
  ((storeKeys store).filter (fun id => id ∉ clientIDs states)).filterMap
    (fun id => storeLookup store id)

/-- CanvasViewImpl.setupObjects: partition the incoming states into
created / updated (deleted from the store keys), and when any of the
three is non-empty run the mutation pass: deactivate the active element,
delete, add, patch non-skeletons, delete-and-readd updated skeletons,
re-sort paint order, reactivate the controller's active element when it
is still present in the incoming list, refresh the autoborder handler.
When all three are empty nothing happens. -/
def setupObjects (s : ViewState) (states : List ObjectState) : ViewState × List SceneOp :=
  let created := createdOf s.drawnStates states
  let updated := updatedOf s.drawnStates states
  let newIDs := clientIDs states
  let deleted := deletedOf s.drawnStates states
  if deleted.length ≠ 0 ∨ updated.length ≠ 0 ∨ created.length ≠ 0 then
    let r1 := if s.activeElement.clientID ≠ none then deactivate s else (s, [])
    let r2 := deleteObjects r1.1 (deleted.map DrawnState.toDeleteSpec)
    let r3 := addObjects r2.1 created
    let updatedSkeletons := updated.filter (fun st => st.shapeType = "skeleton")
    let updatedNotSkeletons := updated.filter (fun st => st.shapeType ≠ "skeleton")
    let r4 := updateObjects r3.1 updatedNotSkeletons
    let r5 := deleteObjects r4.1 (updatedSkeletons.map ObjectState.toDeleteSpec)
    let r6 := addObjects r5.1 updatedSkeletons
    let r7 :=
      match s.controllerActiveElement.clientID with
      | some c =>
        if c ∈ newIDs then activate r6.1 states s.controllerActiveElement else (r6.1, [])
      | none => (r6.1, [])
    (r7.1, r1.2 ++ r2.2 ++ r3.2 ++ r4.2 ++ r5.2 ++ r6.2 ++ [SceneOp.sortOp] ++ r7.2 ++
      [SceneOp.autoborderUpdateOp])
  else (s, [])

/-- The update reasons of CanvasViewImpl.notify whose branches read or
write this.mode (mode is written by the DRAW / INTERACT / MERGE / SPLIT
/ GROUP / CANCEL branches only; the SELECT, DRAG_CANVAS, ZOOM_CANVAS and
SELECT_REGION branches only read it). -/
inductive Reason where
  | draw
  | interact
  | merge
  | split
  | group
  | select
  | cancel
  | dragCanvas
  | zoomCanvas
  | selectRegion
deriving DecidableEq, Repr

/-- The fields of the *Data payloads that the mode assignments of notify
consult: data.enabled, and (for INTERACT) data.intermediateShape. -/
structure NotifyData where
  enabled : Bool
  intermediateShape : Bool
deriving DecidableEq, Repr

/-- The mode transitions performed by CanvasViewImpl.notify: DRAW enters
only from IDLE; INTERACT enters only from IDLE (an intermediate shape
forwards data without touching the mode); MERGE / SPLIT / GROUP set
their mode whenever data.enabled is true, regardless of the current
mode; CANCEL always returns to IDLE; the remaining reasons leave the
mode unchanged. -/
def notifyModeStep (m : Mode) (r : Reason) (d : NotifyData) : Mode :=
  match r with
  | Reason.draw => if d.enabled ∧ m = Mode.idle then Mode.draw else m
  | Reason.interact =>
    if d.enabled ∧ (m = Mode.idle ∨ d.intermediateShape) then
      if ¬d.intermediateShape then Mode.interact else m
    else m
  | Reason.merge => if d.enabled then Mode.merge else m
  | Reason.split => if d.enabled then Mode.split else m
  | Reason.group => if d.enabled then Mode.group else m
  | Reason.cancel => Mode.idle
  | _ => m

/-- The busy modes of the mode state machine (the claim's list). -/
def busyModes : List Mode :=
  [Mode.draw, Mode.merge, Mode.split, Mode.group, Mode.interact,
   Mode.selectRegion, Mode.zoomCanvas, Mode.dragCanvas]

/-- The gesture handlers whose cancel() the CANCEL branch can invoke. -/
inductive HandlerKind where
  | drawHandler
  | interactionHandler
  | mergeHandler
  | splitHandler
  | groupHandler
  | regionSelector
  | editHandler
  | zoomHandler
deriving DecidableEq, Repr

/-- One action of the CANCEL branch: a handler cancel() call or a
CustomEvent dispatch on the canvas element. -/
inductive CancelAction where
  | handlerCancel (h : HandlerKind)
  | dispatchEvent (name : String)
deriving DecidableEq, Repr

/-- The UpdateReasons.CANCEL branch of CanvasViewImpl.notify: route to
the active mode's handler cancel() (for DRAG_CANVAS dispatch
canvas.dragstop; for ZOOM_CANVAS cancel the zoom handler and dispatch
canvas.zoomstop), then unconditionally set mode to IDLE and restore the
default cursor (empty cursor style). -/
def processCancel (m : Mode) : List CancelAction × Mode × String :=
  let actions : List CancelAction :=
    match m with
    | Mode.draw => [CancelAction.handlerCancel HandlerKind.drawHandler]
    | Mode.interact => [CancelAction.handlerCancel HandlerKind.interactionHandler]
    | Mode.merge => [CancelAction.handlerCancel HandlerKind.mergeHandler]
    | Mode.split => [CancelAction.handlerCancel HandlerKind.splitHandler]
    | Mode.group => [CancelAction.handlerCancel HandlerKind.groupHandler]
    | Mode.selectRegion => [CancelAction.handlerCancel HandlerKind.regionSelector]
    | Mode.edit => [CancelAction.handlerCancel HandlerKind.editHandler]
    | Mode.dragCanvas => [CancelAction.dispatchEvent "canvas.dragstop"]
    | Mode.zoomCanvas =>
      [CancelAction.handlerCancel HandlerKind.zoomHandler,
       CancelAction.dispatchEvent "canvas.zoomstop"]
    | _ => []
  (actions, Mode.idle, "")

/-- The payload the draw handler passes to onDrawDone: a redraw carries
the clientID of the existing object; points may be absent, in which case
they are gathered from the elements. -/
structure DrawData where
  clientID : Option Nat
  shapeType : String
  points : Option (List Int)
  elements : List ElementState
deriving DecidableEq, Repr

/-- The events dispatched by the draw/edit completion callbacks. -/
inductive Event where
  | canceled
  | drawn (data : DrawData) (zOrder : Int) (continueFlag : Bool) (duration : Nat)
  | edited (state : ObjectState) (points : List Int) (rotation : Int)
deriving DecidableEq, Repr

/-- CanvasViewImpl.onEditDone: with a state and points dispatch
canvas.edited (carrying the state, the points, and the explicit rotation
when one is given, the state's otherwise); with no state dispatch
canvas.canceled; either way the mode returns to IDLE. -/
def onEditDone (state : Option ObjectState) (points : List Int) (rotation : Option Int) :
    List Event × Mode :=
  match state with
  | some st => ([Event.edited st points (rotation.getD st.rotation)], Mode.idle)
  | none => ([Event.canceled], Mode.idle)

/-- The points of a draw payload: data.points, or — when absent — the
elements' points flattened (the || fallback in onDrawDone). -/
def drawDonePoints (d : DrawData) : List Int :=
  match d.points with
  | some ps => ps
  | none => (d.elements.map ElementState.points).flatten

/-- The outcome of one onDrawDone call: the events dispatched in order,
the mode assignment it performs (none when the mode is left untouched),
and whether a draw-disable notification (draw with enabled false) is
sent to the controller. -/
structure DrawDoneResult where
  events : List Event
  finalMode : Option Mode
  drawDisableIssued : Bool
deriving DecidableEq, Repr

/-- CanvasViewImpl.onDrawDone (zLayer fixed to the given zOrder): a
payload with a numeric clientID is a redraw — canvas.canceled is
dispatched, the existing state is looked up among the controller's
objects and the result is routed through onEditDone, returning before
the mode/notification tail; a payload without clientID dispatches
canvas.drawn; a null payload without the continue flag dispatches
canvas.canceled; unless the continue flag is set, the mode returns to
IDLE and a draw-disable notification is issued. -/
def onDrawDone (objects : List ObjectState) (zOrder : Int) (data : Option DrawData)
    (duration : Nat) (continueDraw : Bool) : DrawDoneResult :=
  match data with
  | some d =>
    let points := drawDonePoints d
    match d.clientID with
    | some clientID =>
      let state := objects.find? (fun st => st.clientID == clientID)
      let r := onEditDone state points none
      ⟨Event.canceled :: r.1, some r.2, false⟩
    | none =>
      let events := [Event.drawn d zOrder continueDraw duration]
      if ¬continueDraw then ⟨events, some Mode.idle, true⟩
      else ⟨events, none, false⟩
  | none =>
    if ¬continueDraw then ⟨[Event.canceled], some Mode.idle, true⟩
    else ⟨[], none, false⟩

/-- One shape.rotate call, as issued by translatePointsFromRotatedShape:
an absolute angle and the optional explicit rotation center (cx, cy). -/
structure RotateCall where
  angle : ℚ
  center : Option (ℚ × ℚ)
deriving DecidableEq, Repr

/-- svg.js rotate sets the shape's absolute rotation angle. -/
def applyRotate (shapeRotation : ℚ) (call : RotateCall) : ℚ :=
  let _ := shapeRotation
  call.angle

/-- The point-mapping loop of translatePointsFromRotatedShape: each point
is pushed through the element-to-client and client-to-canvas matrices
(the composed map is the mapPoint argument here), and any of these DOM
calls may throw. -/
def mapPointLoop (mapPoint : ℚ × ℚ → Except Unit (ℚ × ℚ)) :
    List (ℚ × ℚ) → Except Unit (List (ℚ × ℚ))
  | [] => Except.ok []
  | p :: rest => do
    let q ← mapPoint p
    let tail ← mapPointLoop mapPoint rest
    Except.ok (q :: tail)

/-- CanvasViewImpl.translatePointsFromRotatedShape: read the shape's
current rotation, cancel it (rotate to 0 — about (cx, cy) when both
were given), map every point, and in a finally block — i.e. on the
normal exit and on the exceptional exit alike — rotate back to the saved
rotation with the same center arguments.  The result carries the mapped
points (or the propagated error), the shape's rotation after the call,
and the rotate calls issued. -/
def translatePointsFromRotatedShape (shapeRotation : ℚ)
    (mapPoint : ℚ × ℚ → Except Unit (ℚ × ℚ)) (points : List (ℚ × ℚ))
    (c : Option (ℚ × ℚ)) :
    Except Unit (List (ℚ × ℚ)) × ℚ × List RotateCall :=
  let rotation := shapeRotation
  let entryCall : RotateCall := ⟨0, c⟩
  let shape1 := applyRotate shapeRotation entryCall
  let result := mapPointLoop mapPoint points
  let restoreCall : RotateCall := ⟨rotation, c⟩
  let shape2 := applyRotate shape1 restoreCall
  (result, shape2, [entryCall, restoreCall])

/-- JavaScript truncation toward zero (the rounding of the % operator). -/
def jsTrunc (q : ℚ) : Int :=
  if 0 ≤ q then ⌊q⌋ else ⌈q⌉

/-- The JavaScript % operator on numbers: remainder with the dividend's
sign, a - b * trunc(a / b). -/
def jsMod (a b : ℚ) : ℚ :=
  a - b * jsTrunc (a / b)

/-- The while loop of the resizedone handler: while (rotation < 0)
rotation += 360. -/
def addLoop (r : ℚ) : ℚ :=
  if h : r < 0 then addLoop (r + 360) else r
termination_by (⌈-r / 360⌉).toNat
decreasing_by
  have h1 : (0 : ℚ) < -r / 360 := by
    have : (0 : ℚ) < -r := by linarith
    positivity
  have h2 : ⌈-(r + 360) / 360⌉ = ⌈-r / 360⌉ - 1 := by
    have heq : -(r + 360) / 360 = -r / 360 - 1 := by ring
    rw [heq, Int.ceil_sub_one]
  have h3 : 0 < ⌈-r / 360⌉ := Int.ceil_pos.mpr h1
  simp only [h2]
  omega

/-- The rotation normalization of the resizedone handler in
CanvasViewImpl.activateShape: while (rotation < 0) rotation += 360;
rotation %= 360. -/
def normalizeResizedRotation (r : ℚ) : ℚ :=
  jsMod (addLoop r) 360

/-- Modelled from the spec: vectorLength (shared.ts, not under src) — the
Euclidean length of a 2D vector. -/
noncomputable def vectorLength (v : ℝ × ℝ) : ℝ :=
  Real.sqrt (v.1 ^ 2 + v.2 ^ 2)

/-- Modelled from the spec: scalarProduct (shared.ts, not under src) —
the dot product of two 2D vectors. -/
noncomputable def scalarProduct (a b : ℝ × ℝ) : ℝ :=
  a.1 * b.1 + a.2 * b.2

/-- JavaScript Math.sign. -/
noncomputable def jsSign (x : ℝ) : ℝ :=
  if x < 0 then -1 else if 0 < x then 1 else 0

/-- Math.sign(x) || 1 — the falsy sign 0 is replaced by 1. -/
noncomputable def signOrOne (x : ℝ) : ℝ :=
  if jsSign x = 0 then 1 else jsSign x

/-- The direction-arrow angle computed by CanvasViewImpl.showDirection
from the first two points of a polygon/polyline: the cosine against the
x axis (kept at its initial 0 for a zero-length base vector), then
acos(cosinus) * (sign(j) || 1) * 180 / pi. -/
noncomputable def showDirectionAngle (firstPoint secondPoint : ℝ × ℝ) : ℝ :=
  let xAxis : ℝ × ℝ := (1, 0)
  let baseVector : ℝ × ℝ := (secondPoint.1 - firstPoint.1, secondPoint.2 - firstPoint.2)
  let baseVectorLength := vectorLength baseVector
  let cosinus :=
    if baseVectorLength ≠ 0 then
      scalarProduct xAxis baseVector / (vectorLength xAxis * baseVectorLength)
    else 0
  Real.arccos cosinus * signOrOne baseVector.2 * 180 / Real.pi

/-! Store-level views of the reconciliation phases, used to reason about
(setupObjects s L).1.drawnStates. -/

/-- The drawnStates effect of deleteObjects on one spec. -/
def deleteSpecStore (store : Store) (sp : DeleteSpec) : Store :=
  storeErase
    (if sp.shapeType = "skeleton" then
      sp.elements.foldl (fun acc e => storeErase acc e.clientID) store
    else store)
    sp.clientID

/-- The drawnStates effect of deleteObjects on a spec list. -/
def deleteListStore : Store → List DeleteSpec → Store
  | store, [] => store
  | store, sp :: rest => deleteListStore (deleteSpecStore store sp) rest

/-- The identifiers a spec list erases from drawnStates. -/
def deleteIdsOf (l : List DeleteSpec) : List Nat :=
  l.flatMap (fun sp =>
    sp.clientID ::
      (if sp.shapeType = "skeleton" then sp.elements.map ElementSpec.clientID else []))

/-- The drawnStates effect of addObjects on one state. -/
def addOneStore (store : Store) (st : ObjectState) : Store :=
  if st.shapeType ∈ recognizedShapeTypes then
    storeInsert store st.clientID (saveState st)
  else store

/-- The drawnStates effect of addObjects on a state list. -/
def addListStore : Store → List ObjectState → Store
  | store, [] => store
  | store, st :: rest => addListStore (addOneStore store st) rest

/-- The drawnStates effect of updateObjects on one state. -/
def updOneStore (store : Store) (st : ObjectState) : Store :=
  match storeLookup store st.clientID with
  | none => store
  | some _ => storeInsert store st.clientID (saveState st)

/-- The drawnStates effect of updateObjects on a state list. -/
def updListStore : Store → List ObjectState → Store
  | store, [] => store
  | store, st :: rest => updListStore (updOneStore store st) rest

theorem foldlErase_lookup (es : List ElementSpec) (store : Store) (k : Nat) :
    storeLookup (es.foldl (fun acc e => storeErase acc e.clientID) store) k =
      if k ∈ es.map ElementSpec.clientID then none else storeLookup store k := by
  induction es generalizing store with
  | nil => simp
  | cons e rest ih =>
    rw [List.foldl_cons, ih, List.map_cons]
    by_cases hk : k ∈ rest.map ElementSpec.clientID
    · rw [if_pos hk, if_pos (List.mem_cons.mpr (Or.inr hk))]
    · rw [if_neg hk, storeLookup_erase]
      by_cases he : k = e.clientID
      · rw [if_pos he, if_pos (List.mem_cons.mpr (Or.inl he))]
      · rw [if_neg he, if_neg (by simp [he, hk])]

theorem deleteSpecStore_lookup (store : Store) (sp : DeleteSpec) (k : Nat) :
    storeLookup (deleteSpecStore store sp) k =
      if k = sp.clientID ∨
          (sp.shapeType = "skeleton" ∧ k ∈ sp.elements.map ElementSpec.clientID) then
        none
      else storeLookup store k := by
  unfold deleteSpecStore
  rw [storeLookup_erase]
  by_cases hk : k = sp.clientID
  · rw [if_pos hk, if_pos (Or.inl hk)]
  · rw [if_neg hk]
    by_cases hskel : sp.shapeType = "skeleton"
    · rw [if_pos hskel, foldlErase_lookup]
      by_cases he : k ∈ sp.elements.map ElementSpec.clientID
      · rw [if_pos he, if_pos (Or.inr ⟨hskel, he⟩)]
      · rw [if_neg he, if_neg (by tauto)]
    · rw [if_neg hskel, if_neg (by tauto)]

theorem deleteListStore_lookup (l : List DeleteSpec) (store : Store) (k : Nat) :
    storeLookup (deleteListStore store l) k =
      if k ∈ deleteIdsOf l then none else storeLookup store k := by
  induction l generalizing store with
  | nil => simp [deleteListStore, deleteIdsOf]
  | cons sp rest ih =>
    rw [deleteListStore, ih, deleteSpecStore_lookup]
    have hids : deleteIdsOf (sp :: rest) =
        (sp.clientID ::
          (if sp.shapeType = "skeleton" then sp.elements.map ElementSpec.clientID else [])) ++
          deleteIdsOf rest := by
      simp [deleteIdsOf]
    rw [hids]
    by_cases hrest : k ∈ deleteIdsOf rest
    · rw [if_pos hrest, if_pos (by simp [hrest])]
    · rw [if_neg hrest]
      by_cases hsp : k = sp.clientID ∨
          (sp.shapeType = "skeleton" ∧ k ∈ sp.elements.map ElementSpec.clientID)
      · rw [if_pos hsp, if_pos ?_]
        rcases hsp with h | ⟨hs, h⟩
        · simp [h]
        · simp [hs, h]
      · rw [if_neg hsp, if_neg ?_]
        intro hmem
        rcases List.mem_append.mp hmem with h | h
        · rcases List.mem_cons.mp h with h' | h'
          · exact hsp (Or.inl h')
          · by_cases hs : sp.shapeType = "skeleton"
            · rw [if_pos hs] at h'
              exact hsp (Or.inr ⟨hs, h'⟩)
            · rw [if_neg hs] at h'
              cases h'
        · exact hrest h

theorem addListStore_lookup_notmem (l : List ObjectState) (store : Store) (k : Nat)
    (h : ∀ st ∈ l, st.clientID ≠ k) :
    storeLookup (addListStore store l) k = storeLookup store k := by
  induction l generalizing store with
  | nil => rfl
  | cons st rest ih =>
    rw [addListStore, ih _ (fun u hu => h u (List.mem_cons_of_mem _ hu))]
    unfold addOneStore
    by_cases hr : st.shapeType ∈ recognizedShapeTypes
    · rw [if_pos hr, storeLookup_insert,
        if_neg (fun hk => h st (List.mem_cons_self st rest) hk.symm)]
    · rw [if_neg hr]

theorem updListStore_lookup_notmem (l : List ObjectState) (store : Store) (k : Nat)
    (h : ∀ st ∈ l, st.clientID ≠ k) :
    storeLookup (updListStore store l) k = storeLookup store k := by
  induction l generalizing store with
  | nil => rfl
  | cons st rest ih =>
    rw [updListStore, ih _ (fun u hu => h u (List.mem_cons_of_mem _ hu))]
    unfold updOneStore
    cases hl : storeLookup store st.clientID with
    | none => rfl
    | some ds =>
      rw [storeLookup_insert, if_neg (fun hk => h st (List.mem_cons_self st rest) hk.symm)]

theorem addListStore_lookup_mem (l : List ObjectState) (store : Store) (st : ObjectState)
    (hmem : st ∈ l) (hnd : (l.map ObjectState.clientID).Nodup)
    (hr : st.shapeType ∈ recognizedShapeTypes) :
    storeLookup (addListStore store l) st.clientID = some (saveState st) := by
  induction l generalizing store with
  | nil => cases hmem
  | cons hd rest ih =>
    rw [List.map_cons, List.nodup_cons] at hnd
    rcases List.mem_cons.mp hmem with h | h
    · subst h
      have hno : ∀ u ∈ rest, u.clientID ≠ st.clientID :=
        fun u hu hid => hnd.1 (hid ▸ List.mem_map_of_mem ObjectState.clientID hu)
      rw [addListStore, addListStore_lookup_notmem rest _ st.clientID hno]
      unfold addOneStore
      rw [if_pos hr, storeLookup_insert, if_pos rfl]
    · rw [addListStore]
      exact ih _ h hnd.2

theorem updListStore_lookup_mem (l : List ObjectState) (store : Store) (st : ObjectState)
    (hmem : st ∈ l) (hnd : (l.map ObjectState.clientID).Nodup)
    (hsome : (storeLookup store st.clientID).isSome) :
    storeLookup (updListStore store l) st.clientID = some (saveState st) := by
  induction l generalizing store with
  | nil => cases hmem
  | cons hd rest ih =>
    rw [List.map_cons, List.nodup_cons] at hnd
    rcases List.mem_cons.mp hmem with h | h
    · subst h
      have hno : ∀ u ∈ rest, u.clientID ≠ st.clientID :=
        fun u hu hid => hnd.1 (hid ▸ List.mem_map_of_mem ObjectState.clientID hu)
      rw [updListStore, updListStore_lookup_notmem rest _ st.clientID hno]
      unfold updOneStore
      cases hl : storeLookup store st.clientID with
      | none => rw [hl] at hsome; cases hsome
      | some ds => rw [storeLookup_insert, if_pos rfl]
    · rw [updListStore]
      apply ih _ h hnd.2
      unfold updOneStore
      cases hl : storeLookup store hd.clientID with
      | none => exact hsome
      | some ds =>
        rw [storeLookup_insert]
        by_cases hk : st.clientID = hd.clientID
        · rw [if_pos hk]; rfl
        · rw [if_neg hk]; exact hsome

theorem deleteListStore_isSome (l : List DeleteSpec) (store : Store) (k : Nat)
    (h : (storeLookup (deleteListStore store l) k).isSome) :
    (storeLookup store k).isSome := by
  rw [deleteListStore_lookup] at h
  by_cases hk : k ∈ deleteIdsOf l
  · rw [if_pos hk] at h; cases h
  · rwa [if_neg hk] at h

theorem addListStore_isSome (l : List ObjectState) (store : Store) (k : Nat)
    (h : (storeLookup (addListStore store l) k).isSome) :
    k ∈ l.map ObjectState.clientID ∨ (storeLookup store k).isSome := by
  induction l generalizing store with
  | nil => exact Or.inr h
  | cons hd rest ih =>
    rw [addListStore] at h
    rcases ih _ h with hmem | hsome
    · exact Or.inl (List.mem_cons_of_mem _ hmem)
    · unfold addOneStore at hsome
      by_cases hr : hd.shapeType ∈ recognizedShapeTypes
      · rw [if_pos hr, storeLookup_insert] at hsome
        by_cases hk : k = hd.clientID
        · exact Or.inl (List.mem_cons.mpr (Or.inl hk))
        · rw [if_neg hk] at hsome
          exact Or.inr hsome
      · rw [if_neg hr] at hsome
        exact Or.inr hsome

theorem updListStore_isSome (l : List ObjectState) (store : Store) (k : Nat)
    (h : (storeLookup (updListStore store l) k).isSome) :
    k ∈ l.map ObjectState.clientID ∨ (storeLookup store k).isSome := by
  induction l generalizing store with
  | nil => exact Or.inr h
  | cons hd rest ih =>
    rw [updListStore] at h
    rcases ih _ h with hmem | hsome
    · exact Or.inl (List.mem_cons_of_mem _ hmem)
    · unfold updOneStore at hsome
      cases hl : storeLookup store hd.clientID with
      | none => rw [hl] at hsome; exact Or.inr hsome
      | some ds =>
        rw [hl, storeLookup_insert] at hsome
        by_cases hk : k = hd.clientID
        · exact Or.inl (List.mem_cons.mpr (Or.inl hk))
        · rw [if_neg hk] at hsome
          exact Or.inr hsome

theorem storeLookup_some_mem (store : Store) (k : Nat) (v : DrawnState)
    (h : storeLookup store k = some v) : (k, v) ∈ store := by
  induction store with
  | nil => cases h
  | cons p rest ih =>
    obtain ⟨a, w⟩ := p
    rw [storeLookup] at h
    by_cases hak : a = k
    · rw [if_pos hak] at h
      exact List.mem_cons.mpr (Or.inl (by rw [hak, Option.some_inj.mp h]))
    · rw [if_neg hak] at h
      exact List.mem_cons.mpr (Or.inr (ih h))

@[simp] theorem deleteTextPart_drawnStates (s : ViewState) (c : Nat) :
    (deleteTextPart s c).1.drawnStates = s.drawnStates := by
  unfold deleteTextPart; split <;> rfl

@[simp] theorem deleteTextPart_activeElement (s : ViewState) (c : Nat) :
    (deleteTextPart s c).1.activeElement = s.activeElement := by
  unfold deleteTextPart; split <;> rfl

@[simp] theorem deleteShapePart_drawnStates (s : ViewState) (c : Nat) :
    (deleteShapePart s c).1.drawnStates = s.drawnStates := by
  unfold deleteShapePart; split <;> rfl

@[simp] theorem deleteShapePart_activeElement (s : ViewState) (c : Nat) :
    (deleteShapePart s c).1.activeElement = s.activeElement := by
  unfold deleteShapePart; split <;> rfl

@[simp] theorem deleteStorePart_drawnStates (s : ViewState) (c : Nat) :
    (deleteStorePart s c).drawnStates = storeErase s.drawnStates c := rfl

@[simp] theorem deleteStorePart_activeElement (s : ViewState) (c : Nat) :
    (deleteStorePart s c).activeElement = s.activeElement := rfl

theorem deleteElement_drawnStates (s : ViewState) (e : ElementSpec) :
    (deleteElement s e).1.drawnStates = storeErase s.drawnStates e.clientID := by
  unfold deleteElement; simp

theorem deleteElement_activeElement (s : ViewState) (e : ElementSpec) :
    (deleteElement s e).1.activeElement = s.activeElement := by
  unfold deleteElement; simp

theorem deleteElements_drawnStates (es : List ElementSpec) (s : ViewState) :
    (deleteElements s es).1.drawnStates =
      es.foldl (fun acc e => storeErase acc e.clientID) s.drawnStates := by
  induction es generalizing s with
  | nil => rfl
  | cons e rest ih => rw [deleteElements, List.foldl_cons, ← deleteElement_drawnStates s e]; exact ih _

theorem deleteElements_activeElement (es : List ElementSpec) (s : ViewState) :
    (deleteElements s es).1.activeElement = s.activeElement := by
  induction es generalizing s with
  | nil => rfl
  | cons e rest ih => rw [deleteElements, ih _, deleteElement_activeElement]

theorem deleteOne_drawnStates (s : ViewState) (sp : DeleteSpec) :
    (deleteOne s sp).1.drawnStates = deleteSpecStore s.drawnStates sp := by
  unfold deleteOne deleteSpecStore
  by_cases hs : sp.shapeType = "skeleton"
  · simp [hs, deleteElements_drawnStates]
  · simp [hs]

theorem deleteOne_activeElement (s : ViewState) (sp : DeleteSpec) :
    (deleteOne s sp).1.activeElement = s.activeElement := by
  unfold deleteOne
  by_cases hs : sp.shapeType = "skeleton"
  · simp [hs, deleteElements_activeElement]
  · simp [hs]

theorem deleteObjects_drawnStates (l : List DeleteSpec) (s : ViewState) :
    (deleteObjects s l).1.drawnStates = deleteListStore s.drawnStates l := by
  induction l generalizing s with
  | nil => rfl
  | cons sp rest ih =>
    rw [deleteObjects, deleteListStore, ← deleteOne_drawnStates s sp]; exact ih _

theorem deleteObjects_activeElement (l : List DeleteSpec) (s : ViewState) :
    (deleteObjects s l).1.activeElement = s.activeElement := by
  induction l generalizing s with
  | nil => rfl
  | cons sp rest ih => rw [deleteObjects, ih _, deleteOne_activeElement]

theorem addOne_drawnStates (s : ViewState) (st : ObjectState) :
    (addOne s st).1.drawnStates = addOneStore s.drawnStates st := by
  unfold addOne addOneStore; split <;> rfl

theorem addOne_activeElement (s : ViewState) (st : ObjectState) :
    (addOne s st).1.activeElement = s.activeElement := by
  unfold addOne; split <;> rfl

theorem addObjects_drawnStates (l : List ObjectState) (s : ViewState) :
    (addObjects s l).1.drawnStates = addListStore s.drawnStates l := by
  induction l generalizing s with
  | nil => rfl
  | cons st rest ih =>
    rw [addObjects, addListStore, ← addOne_drawnStates s st]; exact ih _

theorem addObjects_activeElement (l : List ObjectState) (s : ViewState) :
    (addObjects s l).1.activeElement = s.activeElement := by
  induction l generalizing s with
  | nil => rfl
  | cons st rest ih => rw [addObjects, ih _, addOne_activeElement]

theorem updateOne_drawnStates (s : ViewState) (st : ObjectState) :
    (updateOne s st).1.drawnStates = updOneStore s.drawnStates st := by
  unfold updateOne updOneStore
  cases storeLookup s.drawnStates st.clientID <;> rfl

theorem updateOne_activeElement (s : ViewState) (st : ObjectState) :
    (updateOne s st).1.activeElement = s.activeElement := by
  unfold updateOne
  cases storeLookup s.drawnStates st.clientID <;> rfl

theorem updateObjects_drawnStates (l : List ObjectState) (s : ViewState) :
    (updateObjects s l).1.drawnStates = updListStore s.drawnStates l := by
  induction l generalizing s with
  | nil => rfl
  | cons st rest ih =>
    rw [updateObjects, updListStore, ← updateOne_drawnStates s st]; exact ih _

theorem updateObjects_activeElement (l : List ObjectState) (s : ViewState) :
    (updateObjects s l).1.activeElement = s.activeElement := by
  induction l generalizing s with
  | nil => rfl
  | cons st rest ih => rw [updateObjects, ih _, updateOne_activeElement]

theorem deactivateAttribute_drawnStates (s : ViewState) :
    (deactivateAttribute s).1.drawnStates = s.drawnStates := by
  unfold deactivateAttribute
  cases s.activeElement.clientID <;> cases s.activeElement.attributeID <;> rfl

theorem deactivateShape_drawnStates (s : ViewState) :
    (deactivateShape s).1.drawnStates = s.drawnStates := by
  unfold deactivateShape
  cases s.activeElement.clientID <;> rfl

theorem deactivate_drawnStates (s : ViewState) :
    (deactivate s).1.drawnStates = s.drawnStates := by
  unfold deactivate
  rw [deactivateShape_drawnStates, deactivateAttribute_drawnStates]

theorem deactivateShape_clientID (s : ViewState) :
    (deactivateShape s).1.activeElement.clientID = none := by
  unfold deactivateShape
  cases h : s.activeElement.clientID with
  | none => exact h
  | some c => rfl

/-- deactivate always leaves no active clientID. -/
theorem deactivate_clientID (s : ViewState) :
    (deactivate s).1.activeElement.clientID = none := by
  unfold deactivate
  exact deactivateShape_clientID _

theorem activateShape_drawnStates (s : ViewState) (objects : List ObjectState) (c : Nat) :
    (activateShape s objects c).1.drawnStates = s.drawnStates := by
  unfold activateShape
  cases objects.find? (fun st => st.clientID == c) with
  | none => rfl
  | some st =>
    dsimp only []
    split
    · rfl
    · split <;> rfl

theorem activateShape_activeElement (s : ViewState) (objects : List ObjectState) (c : Nat) :
    (activateShape s objects c).1.activeElement = s.activeElement := by
  unfold activateShape
  cases objects.find? (fun st => st.clientID == c) with
  | none => rfl
  | some st =>
    dsimp only []
    split
    · rfl
    · split <;> rfl

theorem activateAttribute_drawnStates (s : ViewState) (c a : Nat) :
    (activateAttribute s c a).1.drawnStates = s.drawnStates := by
  unfold activateAttribute; split <;> rfl

theorem activateAttribute_clientID (s : ViewState) (c a : Nat) :
    (activateAttribute s c a).1.activeElement.clientID = s.activeElement.clientID := by
  unfold activateAttribute; split <;> rfl

theorem activateBlock1_drawnStates (s : ViewState) (ae : ActiveElement) :
    (activateBlock1 s ae).1.drawnStates = s.drawnStates := by
  unfold activateBlock1
  cases s.activeElement.clientID with
  | none => rfl
  | some c =>
    dsimp only []
    split
    · exact deactivate_drawnStates s
    · split
      · exact deactivateAttribute_drawnStates s
      · rfl

theorem activateBlock2_drawnStates (s : ViewState) (objects : List ObjectState) (c : Nat) :
    (activateBlock2 s objects c).1.drawnStates = s.drawnStates := by
  unfold activateBlock2
  split
  · exact activateShape_drawnStates s objects c
  · rfl

theorem activateBlock2_clientID (s : ViewState) (objects : List ObjectState) (c : Nat) :
    (activateBlock2 s objects c).1.activeElement.clientID = some c := by
  unfold activateBlock2
  split
  · rfl
  · rename_i h
    exact not_ne_iff.mp h

theorem activateBlock3_drawnStates (s : ViewState) (c : Nat) (aid : Option Nat) :
    (activateBlock3 s c aid).1.drawnStates = s.drawnStates := by
  unfold activateBlock3
  cases aid with
  | none => rfl
  | some a =>
    dsimp only []
    split
    · exact activateAttribute_drawnStates s c a
    · rfl

theorem activateBlock3_clientID (s : ViewState) (c : Nat) (aid : Option Nat) :
    (activateBlock3 s c aid).1.activeElement.clientID = s.activeElement.clientID := by
  unfold activateBlock3
  cases aid with
  | none => rfl
  | some a =>
    dsimp only []
    split
    · exact activateAttribute_clientID s c a
    · rfl

theorem activate_drawnStates (s : ViewState) (objects : List ObjectState)
    (ae : ActiveElement) : (activate s objects ae).1.drawnStates = s.drawnStates := by
  unfold activate
  cases ae.clientID with
  | none => exact activateBlock1_drawnStates s ae
  | some c =>
    dsimp only []
    rw [activateBlock3_drawnStates, activateBlock2_drawnStates, activateBlock1_drawnStates]

/-- activate always leaves the requested clientID recorded as the active
one (the scene-level activation may have been skipped, but the record
update is unconditional in the source). -/
theorem activate_activeElement_clientID (s : ViewState) (objects : List ObjectState)
    (ae : ActiveElement) :
    (activate s objects ae).1.activeElement.clientID = ae.clientID := by
  unfold activate
  cases hc : ae.clientID with
  | none =>
    unfold activateBlock1
    cases hcur : s.activeElement.clientID with
    | none => exact hcur
    | some c =>
      dsimp only []
      rw [if_pos (by rw [hc]; exact fun h => Option.noConfusion h)]
      exact deactivate_clientID s
  | some c =>
    dsimp only []
    rw [activateBlock3_clientID, activateBlock2_clientID]

/-- The clientIDs of all skeleton elements appearing in a state list. -/
def elemIDs (states : List ObjectState) : List Nat :=
  states.flatMap (fun st => st.elements.map ElementState.clientID)

/-- Well-formed incoming list: clientIDs are globally unique across the
top-level states and their skeleton elements (the upstream model's
clientID uniqueness invariant). -/
def wfStates (states : List ObjectState) : Prop :=
  (clientIDs states ++ elemIDs states).Nodup

/-- Well-formed drawn-state store, relative to an incoming list: each
entry is keyed by its own clientID (saveState stores states under their
clientID), and stored skeleton-element identifiers are not themselves
store keys nor identifiers of the incoming list (clientID
uniqueness again: elements are only stored inside their parents). -/
def storeOK (store : Store) (states : List ObjectState) : Prop :=
  ∀ p ∈ store, p.2.clientID = p.1 ∧
    ∀ e ∈ p.2.elements,
      storeLookup store e.clientID = none ∧ e.clientID ∉ clientIDs states

theorem mem_storeKeys_iff (store : Store) (k : Nat) :
    k ∈ storeKeys store ↔ (storeLookup store k).isSome := by
  induction store with
  | nil => simp [storeKeys, storeLookup]
  | cons p rest ih =>
    obtain ⟨a, v⟩ := p
    rw [storeKeys_cons, storeLookup]
    by_cases hak : a = k
    · simp [hak]
    · rw [if_neg hak, List.mem_cons, ← ih]
      constructor
      · rintro (h | h)
        · exact absurd h.symm hak
        · exact h
      · exact Or.inr

theorem mem_deleteIdsOf (l : List DeleteSpec) (k : Nat) :
    k ∈ deleteIdsOf l ↔ ∃ sp ∈ l, k = sp.clientID ∨
      (sp.shapeType = "skeleton" ∧ k ∈ sp.elements.map ElementSpec.clientID) := by
  unfold deleteIdsOf
  rw [List.mem_flatMap]
  constructor
  · rintro ⟨sp, hsp, hk⟩
    refine ⟨sp, hsp, ?_⟩
    rcases List.mem_cons.mp hk with h | h
    · exact Or.inl h
    · by_cases hs : sp.shapeType = "skeleton"
      · rw [if_pos hs] at h
        exact Or.inr ⟨hs, h⟩
      · rw [if_neg hs] at h
        cases h
  · rintro ⟨sp, hsp, h | ⟨hs, h⟩⟩
    · exact ⟨sp, hsp, List.mem_cons.mpr (Or.inl h)⟩
    · exact ⟨sp, hsp, List.mem_cons.mpr (Or.inr (by rw [if_pos hs]; exact h))⟩

/-- Every DrawnState in the deleted list is a store entry whose key is
absent from the incoming identifiers. -/
theorem mem_deletedOf (store : Store) (states : List ObjectState) (ds : DrawnState)
    (h : ds ∈ deletedOf store states) :
    ∃ k, storeLookup store k = some ds ∧ k ∉ clientIDs states := by
  unfold deletedOf at h
  rcases List.mem_filterMap.mp h with ⟨k, hk, hlook⟩
  rcases List.mem_filter.mp hk with ⟨_, hnotin⟩
  exact ⟨k, hlook, by simpa using hnotin⟩

/-- Conversely, a store entry whose key is absent from the incoming
identifiers appears in the deleted list. -/
theorem deletedOf_of_lookup (store : Store) (states : List ObjectState) (k : Nat)
    (ds : DrawnState) (hlook : storeLookup store k = some ds)
    (hnot : k ∉ clientIDs states) : ds ∈ deletedOf store states := by
  unfold deletedOf
  refine List.mem_filterMap.mpr ⟨k, ?_, hlook⟩
  refine List.mem_filter.mpr ⟨?_, by simpa using hnot⟩
  rw [mem_storeKeys_iff, hlook]
  rfl

/-- No identifier of the incoming list is erased by the deleted specs. -/
theorem notin_deleteIds_deleted (store : Store) (states : List ObjectState)
    (hok : storeOK store states) (k : Nat) (hk : k ∈ clientIDs states) :
    k ∉ deleteIdsOf ((deletedOf store states).map DrawnState.toDeleteSpec) := by
  intro hmem
  rcases (mem_deleteIdsOf _ _).mp hmem with ⟨sp, hsp, hcase⟩
  rcases List.mem_map.mp hsp with ⟨ds, hds, hspe⟩
  rcases mem_deletedOf store states ds hds with ⟨k', hlook, hk'⟩
  have hmemStore := storeLookup_some_mem store k' ds hlook
  have hcons : ds.clientID = k' := (hok _ hmemStore).1
  rcases hcase with h | ⟨hs, h⟩
  · rw [← hspe] at h
    have hkk : k = k' := by
      rw [← hcons]
      exact h
    exact hk' (hkk ▸ hk)
  · rw [← hspe] at h
    rcases List.mem_map.mp h with ⟨e, he, hek⟩
    rcases List.mem_map.mp he with ⟨e', he', hee⟩
    have hnot : e'.clientID ∉ clientIDs states := ((hok _ hmemStore).2 e' he').2
    rw [← hee] at hek
    have hke : e'.clientID = k := hek
    exact hnot (by rw [hke]; exact hk)

/-- No identifier of the incoming list is a skeleton element of an
incoming updated skeleton (clientID uniqueness). -/
theorem notin_deleteIds_skeletons (states : List ObjectState) (hnd : wfStates states)
    (l : List ObjectState) (hsub : ∀ u ∈ l, u ∈ states ∧ u.shapeType = "skeleton")
    (k : Nat) (hk : k ∈ clientIDs states)
    (hkl : ∀ u ∈ l, u.clientID ≠ k) :
    k ∉ deleteIdsOf (l.map ObjectState.toDeleteSpec) := by
  intro hmem
  rcases (mem_deleteIdsOf _ _).mp hmem with ⟨sp, hsp, hcase⟩
  rcases List.mem_map.mp hsp with ⟨u, hu, hue⟩
  rcases hcase with h | ⟨hs, h⟩
  · rw [← hue] at h
    exact hkl u hu (by exact h.symm)
  · rw [← hue] at h
    rcases List.mem_map.mp h with ⟨e, he, hek⟩
    rcases List.mem_map.mp he with ⟨e', he', hee⟩
    have helem : k ∈ elemIDs states := by
      unfold elemIDs
      refine List.mem_flatMap.mpr ⟨u, (hsub u hu).1, ?_⟩
      rw [← hek, ← hee]
      exact List.mem_map_of_mem _ he'
    have hdisj := (List.nodup_append.mp hnd).2.2
    exact hdisj hk helem

/-- The combined drawnStates effect of the mutation pass of
setupObjects: delete, add created, patch non-skeleton updated, delete
and re-add updated skeletons. -/
def reconStore (store : Store) (states : List ObjectState) : Store :=
  let created := createdOf store states
  let updated := updatedOf store states
  let deleted := deletedOf store states
  let updatedSkeletons := updated.filter (fun st => st.shapeType = "skeleton")
  let updatedNotSkeletons := updated.filter (fun st => st.shapeType ≠ "skeleton")
  addListStore
    (deleteListStore
      (updListStore
        (addListStore
          (deleteListStore store (deleted.map DrawnState.toDeleteSpec))
          created)
        updatedNotSkeletons)
      (updatedSkeletons.map ObjectState.toDeleteSpec))
    updatedSkeletons

/-- After the mutation pass, every incoming state (all shape types
recognized) has a stored DrawnState agreeing with it on the updated
version and the frame. -/
theorem reconStore_lookup (store : Store) (L : List ObjectState)
    (hnd : wfStates L) (hok : storeOK store L)
    (hrec : ∀ st ∈ L, st.shapeType ∈ recognizedShapeTypes)
    (st : ObjectState) (hst : st ∈ L) :
    ∃ ds, storeLookup (reconStore store L) st.clientID = some ds ∧
      ds.updated = st.updated ∧ ds.frame = st.frame := by
  have hndIds : (L.map ObjectState.clientID).Nodup := (List.nodup_append.mp hnd).1
  have hinj := List.inj_on_of_nodup_map hndIds
  have hmemids : st.clientID ∈ clientIDs L := List.mem_map_of_mem _ hst
  have hCrSub : ∀ u ∈ createdOf store L, u ∈ L ∧ createdTest store u = true :=
    fun u hu => List.mem_filter.mp hu
  have hUpSub : ∀ u ∈ updatedOf store L, u ∈ L ∧ updatedTest store u = true :=
    fun u hu => List.mem_filter.mp hu
  have hUpSkelSub : ∀ u ∈ (updatedOf store L).filter (fun v => v.shapeType = "skeleton"),
      u ∈ updatedOf store L ∧ u.shapeType = "skeleton" := by
    intro u hu
    have h := List.mem_filter.mp hu
    exact ⟨h.1, by simpa using h.2⟩
  have hUpNotSub : ∀ u ∈ (updatedOf store L).filter (fun v => v.shapeType ≠ "skeleton"),
      u ∈ updatedOf store L ∧ u.shapeType ≠ "skeleton" := by
    intro u hu
    have h := List.mem_filter.mp hu
    exact ⟨h.1, by simpa using h.2⟩
  have hCrNodup : ((createdOf store L).map ObjectState.clientID).Nodup :=
    ((List.filter_sublist L).map ObjectState.clientID).nodup hndIds
  have hUpNodup : ((updatedOf store L).map ObjectState.clientID).Nodup :=
    ((List.filter_sublist L).map ObjectState.clientID).nodup hndIds
  have hUpSkelNodup :
      (((updatedOf store L).filter (fun v => v.shapeType = "skeleton")).map
        ObjectState.clientID).Nodup :=
    ((List.filter_sublist _).map ObjectState.clientID).nodup hUpNodup
  have hUpNotNodup :
      (((updatedOf store L).filter (fun v => v.shapeType ≠ "skeleton")).map
        ObjectState.clientID).Nodup :=
    ((List.filter_sublist _).map ObjectState.clientID).nodup hUpNodup
  -- step 1: the deleted specs never erase an incoming identifier
  have h2 : storeLookup
      (deleteListStore store ((deletedOf store L).map DrawnState.toDeleteSpec)) st.clientID =
      storeLookup store st.clientID := by
    rw [deleteListStore_lookup, if_neg (notin_deleteIds_deleted store L hok _ hmemids)]
  -- the skeleton re-add specs never erase an identifier of a state that
  -- is not itself an updated skeleton
  have hSkelNoErase : (∀ u ∈ (updatedOf store L).filter (fun v => v.shapeType = "skeleton"),
        u.clientID ≠ st.clientID) →
      st.clientID ∉ deleteIdsOf
        (((updatedOf store L).filter (fun v => v.shapeType = "skeleton")).map
          ObjectState.toDeleteSpec) := by
    intro hne
    refine notin_deleteIds_skeletons L hnd _ ?_ _ hmemids hne
    intro u hu
    exact ⟨(hUpSub u (hUpSkelSub u hu).1).1, (hUpSkelSub u hu).2⟩
  unfold reconStore
  cases hc : storeLookup store st.clientID with
  | none =>
    -- created: no DrawnState yet
    have hstCr : st ∈ createdOf store L :=
      List.mem_filter.mpr ⟨hst, by simp [createdTest, hc]⟩
    have hUpNe : ∀ u ∈ updatedOf store L, u.clientID ≠ st.clientID := by
      intro u hu hid
      have hu' := hinj (hUpSub u hu).1 hst hid
      subst hu'
      have := (hUpSub u hu).2
      rw [updatedTest, hc] at this
      cases this
    refine ⟨saveState st, ?_, rfl, rfl⟩
    rw [addListStore_lookup_notmem _ _ _
        (fun u hu => hUpNe u (hUpSkelSub u hu).1),
      deleteListStore_lookup,
      if_neg (hSkelNoErase (fun u hu => hUpNe u (hUpSkelSub u hu).1)),
      updListStore_lookup_notmem _ _ _ (fun u hu => hUpNe u (hUpNotSub u hu).1)]
    exact addListStore_lookup_mem _ _ st hstCr hCrNodup (hrec st hst)
  | some ds =>
    have hCrNe : ∀ u ∈ createdOf store L, u.clientID ≠ st.clientID := by
      intro u hu hid
      have hu' := hinj (hCrSub u hu).1 hst hid
      subst hu'
      have := (hCrSub u hu).2
      rw [createdTest, hc] at this
      cases this
    by_cases hupd : updatedTest store st = true
    · have hstUp : st ∈ updatedOf store L := List.mem_filter.mpr ⟨hst, hupd⟩
      by_cases hskel : st.shapeType = "skeleton"
      · -- updated skeleton: deleted wholesale and re-added
        have hstSkel : st ∈ (updatedOf store L).filter (fun v => v.shapeType = "skeleton") :=
          List.mem_filter.mpr ⟨hstUp, by simpa using hskel⟩
        refine ⟨saveState st, ?_, rfl, rfl⟩
        exact addListStore_lookup_mem _ _ st hstSkel hUpSkelNodup (hrec st hst)
      · -- updated non-skeleton: patched in place
        have hstNot : st ∈ (updatedOf store L).filter (fun v => v.shapeType ≠ "skeleton") :=
          List.mem_filter.mpr ⟨hstUp, by simpa using hskel⟩
        have hSkelNe : ∀ u ∈ (updatedOf store L).filter (fun v => v.shapeType = "skeleton"),
            u.clientID ≠ st.clientID := by
          intro u hu hid
          have hu' := hinj (hUpSub u (hUpSkelSub u hu).1).1 hst hid
          subst hu'
          exact hskel (hUpSkelSub u hu).2
        refine ⟨saveState st, ?_, rfl, rfl⟩
        rw [addListStore_lookup_notmem _ _ _ hSkelNe,
          deleteListStore_lookup, if_neg (hSkelNoErase hSkelNe)]
        apply updListStore_lookup_mem _ _ st hstNot hUpNotNodup
        rw [addListStore_lookup_notmem _ _ _ hCrNe, h2, hc]
        rfl
    · -- unchanged: version and frame both agree, entry untouched
      have hUpNe : ∀ u ∈ updatedOf store L, u.clientID ≠ st.clientID := by
        intro u hu hid
        have hu' := hinj (hUpSub u hu).1 hst hid
        subst hu'
        exact hupd (hUpSub u hu).2
      have heq : ds.updated = st.updated ∧ ds.frame = st.frame := by
        rw [updatedTest, hc] at hupd
        simp only [Bool.or_eq_true, decide_eq_true_eq, not_or] at hupd
        exact ⟨not_not.mp hupd.1, not_not.mp hupd.2⟩
      refine ⟨ds, ?_, heq.1, heq.2⟩
      rw [addListStore_lookup_notmem _ _ _
          (fun u hu => hUpNe u (hUpSkelSub u hu).1),
        deleteListStore_lookup,
        if_neg (hSkelNoErase (fun u hu => hUpNe u (hUpSkelSub u hu).1)),
        updListStore_lookup_notmem _ _ _ (fun u hu => hUpNe u (hUpNotSub u hu).1),
        addListStore_lookup_notmem _ _ _ hCrNe, h2, hc]

/-- After the mutation pass, every stored identifier belongs to the
incoming list. -/
theorem reconStore_isSome (store : Store) (L : List ObjectState)
    (hok : storeOK store L) (k : Nat)
    (h : (storeLookup (reconStore store L) k).isSome) : k ∈ clientIDs L := by
  unfold reconStore at h
  rcases addListStore_isSome _ _ _ h with hmem | h5
  · rcases List.mem_map.mp hmem with ⟨u, hu, hue⟩
    have := (List.mem_filter.mp ((List.mem_filter.mp hu).1)).1
    exact hue ▸ List.mem_map_of_mem _ this
  · have h4 := deleteListStore_isSome _ _ _ h5
    rcases updListStore_isSome _ _ _ h4 with hmem | h3
    · rcases List.mem_map.mp hmem with ⟨u, hu, hue⟩
      have := (List.mem_filter.mp ((List.mem_filter.mp hu).1)).1
      exact hue ▸ List.mem_map_of_mem _ this
    · rcases addListStore_isSome _ _ _ h3 with hmem | h2
      · rcases List.mem_map.mp hmem with ⟨u, hu, hue⟩
        have := (List.mem_filter.mp hu).1
        exact hue ▸ List.mem_map_of_mem _ this
      · rw [deleteListStore_lookup] at h2
        by_cases hdel : k ∈ deleteIdsOf ((deletedOf store L).map DrawnState.toDeleteSpec)
        · rw [if_pos hdel] at h2
          cases h2
        · rw [if_neg hdel] at h2
          by_contra hknot
          cases hlook : storeLookup store k with
          | none => rw [hlook] at h2; cases h2
          | some ds =>
            apply hdel
            have hds : ds ∈ deletedOf store L := deletedOf_of_lookup store L k ds hlook hknot
            refine (mem_deleteIdsOf _ _).mpr
              ⟨ds.toDeleteSpec, List.mem_map_of_mem _ hds, Or.inl ?_⟩
            have hmemStore := storeLookup_some_mem store k ds hlook
            have hcons : ds.clientID = k := (hok _ hmemStore).1
            exact hcons.symm

theorem deactivate_activeElement_of_some (s : ViewState) (c : Nat)
    (h : s.activeElement.clientID = some c) :
    (deactivate s).1.activeElement = ⟨none, none⟩ := by
  unfold deactivate deactivateShape deactivateAttribute
  cases ha : s.activeElement.attributeID with
  | none => simp [h, ha]
  | some a => simp [h, ha]

/-- Under the mutation condition, the resulting drawnStates are exactly
the reconStore pipeline (the deactivation and reactivation around the
pass never touch drawnStates). -/
theorem setupObjects_drawnStates_mutates (s : ViewState) (L : List ObjectState)
    (h : (deletedOf s.drawnStates L).length ≠ 0 ∨ (updatedOf s.drawnStates L).length ≠ 0 ∨
      (createdOf s.drawnStates L).length ≠ 0) :
    (setupObjects s L).1.drawnStates = reconStore s.drawnStates L := by
  simp only [setupObjects]
  rw [if_pos h]
  cases hctrl : s.controllerActiveElement.clientID with
  | none =>
    dsimp only []
    rw [addObjects_drawnStates, deleteObjects_drawnStates, updateObjects_drawnStates,
      addObjects_drawnStates, deleteObjects_drawnStates]
    unfold reconStore
    split
    · rw [deactivate_drawnStates]
    · rfl
  | some c =>
    dsimp only []
    by_cases hcmem : c ∈ clientIDs L
    · rw [if_pos hcmem, activate_drawnStates, addObjects_drawnStates,
        deleteObjects_drawnStates, updateObjects_drawnStates,
        addObjects_drawnStates, deleteObjects_drawnStates]
      unfold reconStore
      split
      · rw [deactivate_drawnStates]
      · rfl
    · rw [if_neg hcmem]
      dsimp only []
      rw [addObjects_drawnStates, deleteObjects_drawnStates, updateObjects_drawnStates,
        addObjects_drawnStates, deleteObjects_drawnStates]
      unfold reconStore
      split
      · rw [deactivate_drawnStates]
      · rfl

/-- Under the mutation condition, with an element active, the final
active clientID is the controller's active identifier when it is still
present in the incoming list, and null otherwise. -/
theorem setupObjects_activeElement_clientID (s : ViewState) (L : List ObjectState)
    (h : (deletedOf s.drawnStates L).length ≠ 0 ∨ (updatedOf s.drawnStates L).length ≠ 0 ∨
      (createdOf s.drawnStates L).length ≠ 0) (cid : Nat)
    (hact : s.activeElement.clientID = some cid) :
    (setupObjects s L).1.activeElement.clientID =
      (match s.controllerActiveElement.clientID with
        | some c => if c ∈ clientIDs L then some c else none
        | none => none) := by
  have hne : s.activeElement.clientID ≠ none := by rw [hact]; exact fun hh => Option.noConfusion hh
  simp only [setupObjects]
  rw [if_pos h]
  cases hctrl : s.controllerActiveElement.clientID with
  | none =>
    dsimp only []
    rw [addObjects_activeElement, deleteObjects_activeElement, updateObjects_activeElement,
      addObjects_activeElement, deleteObjects_activeElement]
    rw [if_pos hne]
    rw [deactivate_activeElement_of_some s cid hact]
  | some c =>
    dsimp only []
    by_cases hcmem : c ∈ clientIDs L
    · rw [if_pos hcmem, if_pos hcmem, activate_activeElement_clientID]
      exact hctrl
    · rw [if_neg hcmem, if_neg hcmem]
      dsimp only []
      rw [addObjects_activeElement, deleteObjects_activeElement, updateObjects_activeElement,
        addObjects_activeElement, deleteObjects_activeElement]
      rw [if_pos hne]
      rw [deactivate_activeElement_of_some s cid hact]

/-- Under the mutation condition, with an element active, when the
controller's active identifier is absent from the incoming list (or
null) the pass ends fully deactivated. -/
theorem setupObjects_activeElement_cleared (s : ViewState) (L : List ObjectState)
    (h : (deletedOf s.drawnStates L).length ≠ 0 ∨ (updatedOf s.drawnStates L).length ≠ 0 ∨
      (createdOf s.drawnStates L).length ≠ 0) (cid : Nat)
    (hact : s.activeElement.clientID = some cid)
    (hch : ∀ c, s.controllerActiveElement.clientID = some c → c ∉ clientIDs L) :
    (setupObjects s L).1.activeElement = ⟨none, none⟩ := by
  have hne : s.activeElement.clientID ≠ none := by rw [hact]; exact fun hh => Option.noConfusion hh
  simp only [setupObjects]
  rw [if_pos h]
  cases hctrl : s.controllerActiveElement.clientID with
  | none =>
    dsimp only []
    rw [addObjects_activeElement, deleteObjects_activeElement, updateObjects_activeElement,
      addObjects_activeElement, deleteObjects_activeElement]
    rw [if_pos hne]
    exact deactivate_activeElement_of_some s cid hact
  | some c =>
    dsimp only []
    rw [if_neg (hch c hctrl)]
    dsimp only []
    rw [addObjects_activeElement, deleteObjects_activeElement, updateObjects_activeElement,
      addObjects_activeElement, deleteObjects_activeElement]
    rw [if_pos hne]
    exact deactivate_activeElement_of_some s cid hact

/-- Under the mutation condition the emitted operations start with the
deactivation block. -/
theorem setupObjects_ops_start (s : ViewState) (L : List ObjectState)
    (h : (deletedOf s.drawnStates L).length ≠ 0 ∨ (updatedOf s.drawnStates L).length ≠ 0 ∨
      (createdOf s.drawnStates L).length ≠ 0) (cid : Nat)
    (hact : s.activeElement.clientID = some cid) :
    ∃ rest, (setupObjects s L).2 = (deactivate s).2 ++ rest := by
  have hne : s.activeElement.clientID ≠ none := by rw [hact]; exact fun hh => Option.noConfusion hh
  simp only [setupObjects]
  rw [if_pos h, if_pos hne]
  simp only [List.append_assoc]
  exact ⟨_, rfl⟩

/-- When created, updated and deleted are all empty, setupObjects takes
the no-op branch: no state change and no operation. -/
theorem setupObjects_noop (s : ViewState) (L : List ObjectState)
    (hd : deletedOf s.drawnStates L = []) (hu : updatedOf s.drawnStates L = [])
    (hc : createdOf s.drawnStates L = []) :
    setupObjects s L = (s, []) := by
  simp only [setupObjects, hd, hu, hc]
  simp

instance (states : List ObjectState) : Decidable (wfStates states) := by
  unfold wfStates; infer_instance

instance (store : Store) (states : List ObjectState) : Decidable (storeOK store states) := by
  unfold storeOK; exact inferInstance

/-- A store that covers the incoming list with agreeing version/frame
snapshots, and stores nothing else, classifies everything as unchanged. -/
theorem classification_empty (store₁ : Store) (L : List ObjectState)
    (hA : ∀ st ∈ L, ∃ ds, storeLookup store₁ st.clientID = some ds ∧
      ds.updated = st.updated ∧ ds.frame = st.frame)
    (hB : ∀ k, (storeLookup store₁ k).isSome → k ∈ clientIDs L) :
    createdOf store₁ L = [] ∧ updatedOf store₁ L = [] ∧ deletedOf store₁ L = [] := by
  refine ⟨?_, ?_, ?_⟩
  · rw [createdOf, List.filter_eq_nil_iff]
    intro st hst
    obtain ⟨ds, hds, _, _⟩ := hA st hst
    simp [createdTest, hds]
  · rw [updatedOf, List.filter_eq_nil_iff]
    intro st hst
    obtain ⟨ds, hds, h1, h2⟩ := hA st hst
    simp [updatedTest, hds, h1, h2]
  · rw [deletedOf]
    have hfil : (storeKeys store₁).filter (fun id => id ∉ clientIDs L) = [] := by
      rw [List.filter_eq_nil_iff]
      intro k hk
      simp only [decide_not, Bool.not_eq_true', decide_eq_false_iff_not, not_not]
      exact hB k ((mem_storeKeys_iff store₁ k).mp hk)
    rw [hfil]
    rfl

/-- An object state whose shapeType addObjects skips (the source logs it
and continues without saving a DrawnState). -/
def skippedState : ObjectState :=
  ⟨2, "mask", [0, 0], 0, 5, 0, false, false, false, false, false, 0, []⟩

/-- An empty view: nothing drawn, nothing active. -/
def emptyView : ViewState :=
  ⟨[], [], [], ⟨none, none⟩, ⟨none, none⟩, false, false⟩

/-- Claim C1 counterexample: for the one-element list whose object has a
shapeType skipped during creation, reconciling twice does NOT make the
second call take the no-op branch — the skipped object never received a
DrawnState, so it is classified as created again and the mutation pass
reruns (the second call still emits operations). -/
theorem setupObjects_skipped_shape_not_noop :
    createdOf (setupObjects emptyView [skippedState]).1.drawnStates [skippedState] ≠ [] ∧
      (setupObjects (setupObjects emptyView [skippedState]).1 [skippedState]).2 ≠ [] := by
  decide

/-- Claim C1 (amended): reconciliation is idempotent for well-formed
lists all of whose objects have a recognized shapeType: after
reconcile(L), reconciling the same L again takes the no-op branch —
created, updated and deleted are all empty — so the second call mutates
nothing and emits no operation.  (The claim's parenthetical about
skipped shapeTypes fails: a skipped object is classified as created on
every pass; see the counterexample.) -/
theorem setupObjects_idempotent (s : ViewState) (L : List ObjectState)
    (hnd : wfStates L) (hok : storeOK s.drawnStates L)
    (hrec : ∀ st ∈ L, st.shapeType ∈ recognizedShapeTypes) :
    setupObjects (setupObjects s L).1 L = ((setupObjects s L).1, []) := by
  by_cases hcond : (deletedOf s.drawnStates L).length ≠ 0 ∨
      (updatedOf s.drawnStates L).length ≠ 0 ∨ (createdOf s.drawnStates L).length ≠ 0
  · have hds := setupObjects_drawnStates_mutates s L hcond
    have hA : ∀ st ∈ L, ∃ ds,
        storeLookup (setupObjects s L).1.drawnStates st.clientID = some ds ∧
          ds.updated = st.updated ∧ ds.frame = st.frame := by
      rw [hds]
      exact reconStore_lookup s.drawnStates L hnd hok hrec
    have hB : ∀ k, (storeLookup (setupObjects s L).1.drawnStates k).isSome →
        k ∈ clientIDs L := by
      rw [hds]
      exact reconStore_isSome s.drawnStates L hok
    obtain ⟨hc1, hu1, hd1⟩ := classification_empty _ L hA hB
    exact setupObjects_noop _ L hd1 hu1 hc1
  · push_neg at hcond
    have hs1 : setupObjects s L = (s, []) :=
      setupObjects_noop s L (List.length_eq_zero.mp hcond.1)
        (List.length_eq_zero.mp hcond.2.1) (List.length_eq_zero.mp hcond.2.2)
    rw [hs1]
    exact hs1

/-- Witness for the amended C1: one rectangle reconciled onto an empty
view; the second reconcile of the same list changes nothing. -/
theorem setupObjects_idempotent_witness :
    wfStates [⟨1, "rectangle", [0, 0, 10, 10], 0, 5, 0,
        false, false, false, false, false, 0, []⟩] ∧
      storeOK emptyView.drawnStates [⟨1, "rectangle", [0, 0, 10, 10], 0, 5, 0,
        false, false, false, false, false, 0, []⟩] ∧
      setupObjects (setupObjects emptyView [⟨1, "rectangle", [0, 0, 10, 10], 0, 5, 0,
          false, false, false, false, false, 0, []⟩]).1
        [⟨1, "rectangle", [0, 0, 10, 10], 0, 5, 0, false, false, false, false, false, 0, []⟩] =
      ((setupObjects emptyView [⟨1, "rectangle", [0, 0, 10, 10], 0, 5, 0,
          false, false, false, false, false, 0, []⟩]).1, []) :=
  ⟨by decide, by decide,
    setupObjects_idempotent emptyView _ (by decide) (by decide) (by decide)⟩

/-- The object a scene operation mutates when it is one of the
reconciliation mutations (primitive deletion, creation, or in-place
patch); activation/deactivation affordance operations and global
re-sorts are not reconciliation mutations. -/
def mutTarget : SceneOp → Option Nat
  | SceneOp.deleteShapeOp c => some c
  | SceneOp.addShapeOp c _ => some c
  | SceneOp.updateShapeOp c => some c
  | _ => none

/-- All identifiers deleteObjects can emit deleteShapeOp for. -/
def deleteOpsIds (l : List DeleteSpec) : List Nat :=
  l.flatMap (fun sp => sp.clientID :: sp.elements.map ElementSpec.clientID)

theorem deleteTextPart_ops (s : ViewState) (c : Nat) :
    ∀ op ∈ (deleteTextPart s c).2, mutTarget op = none := by
  unfold deleteTextPart
  split <;> simp [mutTarget]

theorem deleteShapePart_ops (s : ViewState) (c : Nat) :
    ∀ op ∈ (deleteShapePart s c).2, ∀ i, mutTarget op = some i → i = c := by
  unfold deleteShapePart
  split
  · intro op hop i hi
    simp only [List.mem_singleton] at hop
    subst hop
    simp [mutTarget] at hi
    exact hi.symm
  · intro op hop
    cases hop

theorem deleteElement_ops (s : ViewState) (e : ElementSpec) :
    ∀ op ∈ (deleteElement s e).2, ∀ i, mutTarget op = some i → i = e.clientID := by
  unfold deleteElement
  intro op hop i hi
  dsimp only [] at hop
  rcases List.mem_append.mp hop with h | h
  · rw [deleteTextPart_ops s e.clientID op h] at hi
    cases hi
  · exact deleteShapePart_ops _ _ op h i hi

theorem deleteElements_ops (es : List ElementSpec) (s : ViewState) :
    ∀ op ∈ (deleteElements s es).2, ∀ i, mutTarget op = some i →
      i ∈ es.map ElementSpec.clientID := by
  induction es generalizing s with
  | nil => intro op hop; cases hop
  | cons e rest ih =>
    intro op hop i hi
    rw [deleteElements] at hop
    rcases List.mem_append.mp hop with h | h
    · exact List.mem_cons.mpr (Or.inl (deleteElement_ops s e op h i hi))
    · exact List.mem_cons.mpr (Or.inr (ih _ op h i hi))

theorem deleteOne_ops (s : ViewState) (sp : DeleteSpec) :
    ∀ op ∈ (deleteOne s sp).2, ∀ i, mutTarget op = some i →
      i = sp.clientID ∨ i ∈ sp.elements.map ElementSpec.clientID := by
  unfold deleteOne
  intro op hop i hi
  dsimp only [] at hop
  rcases List.mem_append.mp hop with h | h
  · rcases List.mem_append.mp h with h' | h'
    · rw [deleteTextPart_ops s sp.clientID op h'] at hi
      cases hi
    · by_cases hs : sp.shapeType = "skeleton"
      · rw [if_pos hs] at h'
        exact Or.inr (deleteElements_ops _ _ op h' i hi)
      · rw [if_neg hs] at h'
        cases h'
  · exact Or.inl (deleteShapePart_ops _ _ op h i hi)

theorem deleteObjects_ops (l : List DeleteSpec) (s : ViewState) :
    ∀ op ∈ (deleteObjects s l).2, ∀ i, mutTarget op = some i → i ∈ deleteOpsIds l := by
  induction l generalizing s with
  | nil => intro op hop; cases hop
  | cons sp rest ih =>
    intro op hop i hi
    rw [deleteObjects] at hop
    rcases List.mem_append.mp hop with h | h
    · rcases deleteOne_ops s sp op h i hi with h' | h'
      · exact List.mem_flatMap.mpr ⟨sp, List.mem_cons_self sp rest,
          List.mem_cons.mpr (Or.inl h')⟩
      · exact List.mem_flatMap.mpr ⟨sp, List.mem_cons_self sp rest,
          List.mem_cons.mpr (Or.inr h')⟩
    · have := ih _ op h i hi
      rcases List.mem_flatMap.mp this with ⟨sp', hsp', hmem⟩
      exact List.mem_flatMap.mpr ⟨sp', List.mem_cons_of_mem _ hsp', hmem⟩

theorem addOne_ops (s : ViewState) (st : ObjectState) :
    ∀ op ∈ (addOne s st).2, ∀ i, mutTarget op = some i → i = st.clientID := by
  unfold addOne
  split
  · intro op hop i hi
    rcases List.mem_append.mp hop with h | h
    · simp only [List.mem_singleton] at h
      subst h
      simp [mutTarget] at hi
      exact hi.symm
    · split at h
      · simp only [List.mem_singleton] at h
        subst h
        cases hi
      · cases h
  · intro op hop
    cases hop

theorem addObjects_ops (l : List ObjectState) (s : ViewState) :
    ∀ op ∈ (addObjects s l).2, ∀ i, mutTarget op = some i → i ∈ clientIDs l := by
  induction l generalizing s with
  | nil => intro op hop; cases hop
  | cons st rest ih =>
    intro op hop i hi
    rw [addObjects] at hop
    rcases List.mem_append.mp hop with h | h
    · exact List.mem_cons.mpr (Or.inl (addOne_ops s st op h i hi))
    · exact List.mem_cons.mpr (Or.inr (ih _ op h i hi))

theorem updateOne_ops (s : ViewState) (st : ObjectState) :
    ∀ op ∈ (updateOne s st).2, ∀ i, mutTarget op = some i → i = st.clientID := by
  unfold updateOne
  cases storeLookup s.drawnStates st.clientID with
  | none => intro op hop; cases hop
  | some ds =>
    intro op hop i hi
    dsimp only [] at hop
    rcases List.mem_append.mp hop with h | h
    · split at h
      · simp only [List.mem_singleton] at h
        subst h
        cases hi
      · cases h
    · simp only [List.mem_singleton] at h
      subst h
      simp [mutTarget] at hi
      exact hi.symm

theorem updateObjects_ops (l : List ObjectState) (s : ViewState) :
    ∀ op ∈ (updateObjects s l).2, ∀ i, mutTarget op = some i → i ∈ clientIDs l := by
  induction l generalizing s with
  | nil => intro op hop; cases hop
  | cons st rest ih =>
    intro op hop i hi
    rw [updateObjects] at hop
    rcases List.mem_append.mp hop with h | h
    · exact List.mem_cons.mpr (Or.inl (updateOne_ops s st op h i hi))
    · exact List.mem_cons.mpr (Or.inr (ih _ op h i hi))

theorem deactivateAttribute_ops (s : ViewState) :
    ∀ op ∈ (deactivateAttribute s).2, mutTarget op = none := by
  unfold deactivateAttribute
  cases s.activeElement.clientID <;> cases s.activeElement.attributeID <;>
    simp [mutTarget]

theorem deactivateShape_ops (s : ViewState) :
    ∀ op ∈ (deactivateShape s).2, mutTarget op = none := by
  unfold deactivateShape
  cases s.activeElement.clientID with
  | none => intro op hop; cases hop
  | some c =>
    intro op hop
    dsimp only [] at hop
    rcases List.mem_append.mp hop with h | h
    · rcases List.mem_append.mp h with h' | h'
      · simp only [List.mem_singleton] at h'
        subst h'
        rfl
      · split at h'
        · simp only [List.mem_singleton] at h'
          subst h'
          rfl
        · cases h'
    · simp only [List.mem_singleton] at h
      subst h
      rfl

theorem deactivate_ops (s : ViewState) :
    ∀ op ∈ (deactivate s).2, mutTarget op = none := by
  unfold deactivate
  intro op hop
  dsimp only [] at hop
  rcases List.mem_append.mp hop with h | h
  · exact deactivateAttribute_ops s op h
  · exact deactivateShape_ops _ op h

theorem activateShape_ops (s : ViewState) (objects : List ObjectState) (c : Nat) :
    ∀ op ∈ (activateShape s objects c).2, mutTarget op = none := by
  unfold activateShape
  cases objects.find? (fun st => st.clientID == c) with
  | none => intro op hop; cases hop
  | some st =>
    dsimp only []
    intro op hop
    split at hop
    · split at hop
      · simp only [List.mem_singleton] at hop
        subst hop
        rfl
      · cases hop
    · split at hop
      · rcases List.mem_append.mp hop with h | h
        · split at h
          · simp only [List.mem_singleton] at h
            subst h
            rfl
          · cases h
        · simp only [List.mem_singleton] at h
          subst h
          rfl
      · rcases List.mem_append.mp hop with h | h
        · rcases List.mem_append.mp h with h' | h'
          · split at h'
            · simp only [List.mem_singleton] at h'
              subst h'
              rfl
            · cases h'
          · simp only [List.mem_singleton] at h'
            subst h'
            rfl
        · rcases List.mem_cons.mp h with h' | h'
          · subst h'
            rfl
          · simp only [List.mem_singleton] at h'
            subst h'
            rfl

theorem activateAttribute_ops (s : ViewState) (c a : Nat) :
    ∀ op ∈ (activateAttribute s c a).2, mutTarget op = none := by
  unfold activateAttribute
  split <;> simp [mutTarget]

theorem activate_ops (s : ViewState) (objects : List ObjectState) (ae : ActiveElement) :
    ∀ op ∈ (activate s objects ae).2, mutTarget op = none := by
  have hb1 : ∀ op ∈ (activateBlock1 s ae).2, mutTarget op = none := by
    unfold activateBlock1
    cases s.activeElement.clientID with
    | none => intro op hop; cases hop
    | some c =>
      dsimp only []
      intro op hop
      split at hop
      · exact deactivate_ops s op hop
      · split at hop
        · exact deactivateAttribute_ops s op hop
        · cases hop
  unfold activate
  cases ae.clientID with
  | none => exact hb1
  | some c =>
    dsimp only []
    intro op hop
    rcases List.mem_append.mp hop with h | h
    · rcases List.mem_append.mp h with h' | h'
      · exact hb1 op h'
      · unfold activateBlock2 at h'
        split at h'
        · exact activateShape_ops _ objects c op h'
        · cases h'
    · unfold activateBlock3 at h
      split at h
      · split at h
        · exact activateAttribute_ops _ c _ op h
        · cases h
      · cases h

/-- Analogue of notin_deleteIds_deleted for all identifiers deleteObjects
can emit deleteShapeOp for (elements included unconditionally). -/
theorem notin_deleteOpsIds_deleted (store : Store) (states : List ObjectState)
    (hok : storeOK store states) (k : Nat) (hk : k ∈ clientIDs states) :
    k ∉ deleteOpsIds ((deletedOf store states).map DrawnState.toDeleteSpec) := by
  intro hmem
  rcases List.mem_flatMap.mp hmem with ⟨sp, hsp, hkmem⟩
  rcases List.mem_map.mp hsp with ⟨ds, hds, hspe⟩
  rcases mem_deletedOf store states ds hds with ⟨k', hlook, hk'⟩
  have hmemStore := storeLookup_some_mem store k' ds hlook
  have hcons : ds.clientID = k' := (hok _ hmemStore).1
  rw [← hspe] at hkmem
  rcases List.mem_cons.mp hkmem with h | h
  · have hkk : k = k' := by
      rw [← hcons]
      exact h
    exact hk' (hkk ▸ hk)
  · rcases List.mem_map.mp h with ⟨e, he, hek⟩
    rcases List.mem_map.mp he with ⟨e', he', hee⟩
    have hnot : e'.clientID ∉ clientIDs states := ((hok _ hmemStore).2 e' he').2
    rw [← hee] at hek
    have hke : e'.clientID = k := hek
    exact hnot (by rw [hke]; exact hk)

/-- Analogue of notin_deleteIds_skeletons for deleteOpsIds. -/
theorem notin_deleteOpsIds_states (states : List ObjectState) (hnd : wfStates states)
    (l : List ObjectState) (hsub : ∀ u ∈ l, u ∈ states) (k : Nat)
    (hk : k ∈ clientIDs states) (hkl : ∀ u ∈ l, u.clientID ≠ k) :
    k ∉ deleteOpsIds (l.map ObjectState.toDeleteSpec) := by
  intro hmem
  rcases List.mem_flatMap.mp hmem with ⟨sp, hsp, hkmem⟩
  rcases List.mem_map.mp hsp with ⟨u, hu, hue⟩
  rw [← hue] at hkmem
  rcases List.mem_cons.mp hkmem with h | h
  · exact hkl u hu h.symm
  · rcases List.mem_map.mp h with ⟨e, he, hek⟩
    rcases List.mem_map.mp he with ⟨e', he', hee⟩
    have helem : k ∈ elemIDs states := by
      unfold elemIDs
      refine List.mem_flatMap.mpr ⟨u, hsub u hu, ?_⟩
      rw [← hek, ← hee]
      exact List.mem_map_of_mem _ he'
    exact (List.nodup_append.mp hnd).2.2 hk helem

/-- A stored entry whose version and frame agree with the incoming state
survives the whole mutation pass untouched. -/
theorem reconStore_lookup_unchanged (store : Store) (L : List ObjectState)
    (hnd : wfStates L) (hok : storeOK store L) (st : ObjectState) (hst : st ∈ L)
    (ds : DrawnState) (hlook : storeLookup store st.clientID = some ds)
    (hupd : updatedTest store st = false) :
    storeLookup (reconStore store L) st.clientID = some ds := by
  have hndIds : (L.map ObjectState.clientID).Nodup := (List.nodup_append.mp hnd).1
  have hinj := List.inj_on_of_nodup_map hndIds
  have hmemids : st.clientID ∈ clientIDs L := List.mem_map_of_mem _ hst
  have hCrSub : ∀ u ∈ createdOf store L, u ∈ L ∧ createdTest store u = true :=
    fun u hu => List.mem_filter.mp hu
  have hUpSub : ∀ u ∈ updatedOf store L, u ∈ L ∧ updatedTest store u = true :=
    fun u hu => List.mem_filter.mp hu
  have hUpSkelSub : ∀ u ∈ (updatedOf store L).filter (fun v => v.shapeType = "skeleton"),
      u ∈ updatedOf store L := fun u hu => (List.mem_filter.mp hu).1
  have hUpNotSub : ∀ u ∈ (updatedOf store L).filter (fun v => v.shapeType ≠ "skeleton"),
      u ∈ updatedOf store L := fun u hu => (List.mem_filter.mp hu).1
  have hUpNe : ∀ u ∈ updatedOf store L, u.clientID ≠ st.clientID := by
    intro u hu hid
    have hu' := hinj (hUpSub u hu).1 hst hid
    subst hu'
    rw [(hUpSub u hu).2] at hupd
    cases hupd
  have hCrNe : ∀ u ∈ createdOf store L, u.clientID ≠ st.clientID := by
    intro u hu hid
    have hu' := hinj (hCrSub u hu).1 hst hid
    subst hu'
    have := (hCrSub u hu).2
    rw [createdTest, hlook] at this
    cases this
  have hSkelNoErase : st.clientID ∉ deleteIdsOf
      (((updatedOf store L).filter (fun v => v.shapeType = "skeleton")).map
        ObjectState.toDeleteSpec) := by
    refine notin_deleteIds_skeletons L hnd _ ?_ _ hmemids
      (fun u hu => hUpNe u (hUpSkelSub u hu))
    intro u hu
    have h := List.mem_filter.mp hu
    exact ⟨(hUpSub u h.1).1, by simpa using h.2⟩
  have h2 : storeLookup
      (deleteListStore store ((deletedOf store L).map DrawnState.toDeleteSpec)) st.clientID =
      storeLookup store st.clientID := by
    rw [deleteListStore_lookup, if_neg (notin_deleteIds_deleted store L hok _ hmemids)]
  unfold reconStore
  rw [addListStore_lookup_notmem _ _ _ (fun u hu => hUpNe u (hUpSkelSub u hu)),
    deleteListStore_lookup, if_neg hSkelNoErase,
    updListStore_lookup_notmem _ _ _ (fun u hu => hUpNe u (hUpNotSub u hu)),
    addListStore_lookup_notmem _ _ _ hCrNe, h2, hlook]

/-- Every reconciliation mutation emitted by the mutation pass targets a
deleted identifier, a created identifier, or an updated identifier. -/
theorem setupObjects_ops_targets (s : ViewState) (L : List ObjectState)
    (hcond : (deletedOf s.drawnStates L).length ≠ 0 ∨
      (updatedOf s.drawnStates L).length ≠ 0 ∨ (createdOf s.drawnStates L).length ≠ 0) :
    ∀ op ∈ (setupObjects s L).2, ∀ i, mutTarget op = some i →
      i ∈ deleteOpsIds ((deletedOf s.drawnStates L).map DrawnState.toDeleteSpec) ∨
      i ∈ clientIDs (createdOf s.drawnStates L) ∨
      i ∈ clientIDs ((updatedOf s.drawnStates L).filter (fun v => v.shapeType ≠ "skeleton")) ∨
      i ∈ deleteOpsIds (((updatedOf s.drawnStates L).filter
          (fun v => v.shapeType = "skeleton")).map ObjectState.toDeleteSpec) ∨
      i ∈ clientIDs ((updatedOf s.drawnStates L).filter
          (fun v => v.shapeType = "skeleton")) := by
  simp only [setupObjects]
  rw [if_pos hcond]
  dsimp only []
  intro op hop i hi
  simp only [List.append_assoc] at hop
  rcases List.mem_append.mp hop with h | hop1
  · -- deactivation block
    exfalso
    have : mutTarget op = none := by
      split at h
      · exact deactivate_ops s op h
      · cases h
    rw [this] at hi
    cases hi
  rcases List.mem_append.mp hop1 with h | hop2
  · exact Or.inl (deleteObjects_ops _ _ op h i hi)
  rcases List.mem_append.mp hop2 with h | hop3
  · exact Or.inr (Or.inl (addObjects_ops _ _ op h i hi))
  rcases List.mem_append.mp hop3 with h | hop4
  · exact Or.inr (Or.inr (Or.inl (updateObjects_ops _ _ op h i hi)))
  rcases List.mem_append.mp hop4 with h | hop5
  · exact Or.inr (Or.inr (Or.inr (Or.inl (deleteObjects_ops _ _ op h i hi))))
  rcases List.mem_append.mp hop5 with h | hop6
  · exact Or.inr (Or.inr (Or.inr (Or.inr (addObjects_ops _ _ op h i hi))))
  exfalso
  rcases List.mem_append.mp hop6 with h | hop7
  · simp only [List.mem_singleton] at h
    subst h
    cases hi
  rcases List.mem_append.mp hop7 with h | hop8
  · have : mutTarget op = none := by
      split at h
      · split at h
        · exact activate_ops _ _ _ op h
        · cases h
      · cases h
    rw [this] at hi
    cases hi
  · simp only [List.mem_singleton] at hop8
    subst hop8
    cases hi

/-- Claim C2: the synchronization key for an already-drawn object is
the updated version together with frame, not raw field equality: a
state whose stored DrawnState agrees on updated and frame is classified
as unchanged — not created, not updated, hence not deleted either — its
stored snapshot survives the pass untouched, and no reconciliation
mutation (deleteShapeOp / addShapeOp / updateShapeOp) ever targets it.
Nothing here constrains the points, so the conclusion holds in
particular when the points differ from the stored ones. -/
theorem setupObjects_version_frame_sync_key (s : ViewState) (L : List ObjectState)
    (hnd : wfStates L) (hok : storeOK s.drawnStates L)
    (st : ObjectState) (hst : st ∈ L) (ds : DrawnState)
    (hlook : storeLookup s.drawnStates st.clientID = some ds)
    (hu : ds.updated = st.updated) (hf : ds.frame = st.frame) :
    st ∉ createdOf s.drawnStates L ∧ st ∉ updatedOf s.drawnStates L ∧
      storeLookup (setupObjects s L).1.drawnStates st.clientID = some ds ∧
      ∀ op ∈ (setupObjects s L).2, mutTarget op ≠ some st.clientID := by
  have hupdTest : updatedTest s.drawnStates st = false := by
    rw [updatedTest, hlook]
    simp [hu, hf]
  have hcrTest : createdTest s.drawnStates st = false := by
    rw [createdTest, hlook]
    rfl
  have hndIds : (L.map ObjectState.clientID).Nodup := (List.nodup_append.mp hnd).1
  have hinj := List.inj_on_of_nodup_map hndIds
  have hmemids : st.clientID ∈ clientIDs L := List.mem_map_of_mem _ hst
  refine ⟨?_, ?_, ?_, ?_⟩
  · intro hmem
    rw [(List.mem_filter.mp hmem).2] at hcrTest
    cases hcrTest
  · intro hmem
    rw [(List.mem_filter.mp hmem).2] at hupdTest
    cases hupdTest
  · by_cases hcond : (deletedOf s.drawnStates L).length ≠ 0 ∨
        (updatedOf s.drawnStates L).length ≠ 0 ∨ (createdOf s.drawnStates L).length ≠ 0
    · rw [setupObjects_drawnStates_mutates s L hcond]
      exact reconStore_lookup_unchanged s.drawnStates L hnd hok st hst ds hlook hupdTest
    · push_neg at hcond
      rw [setupObjects_noop s L (List.length_eq_zero.mp hcond.1)
        (List.length_eq_zero.mp hcond.2.1) (List.length_eq_zero.mp hcond.2.2)]
      exact hlook
  · by_cases hcond : (deletedOf s.drawnStates L).length ≠ 0 ∨
        (updatedOf s.drawnStates L).length ≠ 0 ∨ (createdOf s.drawnStates L).length ≠ 0
    · intro op hop hi
      rcases setupObjects_ops_targets s L hcond op hop st.clientID hi with
        h | h | h | h | h
      · exact notin_deleteOpsIds_deleted s.drawnStates L hok _ hmemids h
      · rcases List.mem_map.mp h with ⟨u, hu', hue⟩
        have hust : u = st := hinj (List.mem_filter.mp hu').1 hst hue
        rw [hust] at hu'
        rw [(List.mem_filter.mp hu').2] at hcrTest
        cases hcrTest
      · rcases List.mem_map.mp h with ⟨u, hu', hue⟩
        have huL : u ∈ L := (List.mem_filter.mp (List.mem_filter.mp hu').1).1
        have hust : u = st := hinj huL hst hue
        rw [hust] at hu'
        rw [(List.mem_filter.mp (List.mem_filter.mp hu').1).2] at hupdTest
        cases hupdTest
      · refine notin_deleteOpsIds_states L hnd _ ?_ _ hmemids ?_ h
        · exact fun u hu' => (List.mem_filter.mp (List.mem_filter.mp hu').1).1
        · intro u hu' hue
          have huL : u ∈ L := (List.mem_filter.mp (List.mem_filter.mp hu').1).1
          have hust : u = st := hinj huL hst hue
          rw [hust] at hu'
          rw [(List.mem_filter.mp (List.mem_filter.mp hu').1).2] at hupdTest
          cases hupdTest
      · rcases List.mem_map.mp h with ⟨u, hu', hue⟩
        have huL : u ∈ L := (List.mem_filter.mp (List.mem_filter.mp hu').1).1
        have hust : u = st := hinj huL hst hue
        rw [hust] at hu'
        rw [(List.mem_filter.mp (List.mem_filter.mp hu').1).2] at hupdTest
        cases hupdTest
    · push_neg at hcond
      rw [setupObjects_noop s L (List.length_eq_zero.mp hcond.1)
        (List.length_eq_zero.mp hcond.2.1) (List.length_eq_zero.mp hcond.2.2)]
      intro op hop
      cases hop

/-- Scenario B stored snapshot: rectangle at [0,0,10,10], version 7. -/
def scenarioBDrawn : DrawnState :=
  ⟨1, "rectangle", [0, 0, 10, 10], 0, 7, 0, false, false, false, false, false, 0, []⟩

/-- Scenario B incoming state: same object, points changed to
[0,0,20,20], same updated version and frame. -/
def scenarioBState : ObjectState :=
  ⟨1, "rectangle", [0, 0, 20, 20], 0, 7, 0, false, false, false, false, false, 0, []⟩

/-- Scenario B view: the object is drawn with the stored snapshot. -/
def scenarioBView : ViewState :=
  ⟨[(1, scenarioBDrawn)], [1], [], ⟨none, none⟩, ⟨none, none⟩, false, false⟩

/-- Witness for C2 at the exact Scenario B boundary: the points differ,
yet the object is unchanged, its snapshot survives, and nothing
mutates it. -/
theorem setupObjects_version_frame_sync_key_witness :
    scenarioBDrawn.points ≠ scenarioBState.points ∧
      (scenarioBState ∉ createdOf scenarioBView.drawnStates [scenarioBState] ∧
        scenarioBState ∉ updatedOf scenarioBView.drawnStates [scenarioBState] ∧
        storeLookup (setupObjects scenarioBView [scenarioBState]).1.drawnStates
          scenarioBState.clientID = some scenarioBDrawn ∧
        ∀ op ∈ (setupObjects scenarioBView [scenarioBState]).2,
          mutTarget op ≠ some scenarioBState.clientID) :=
  ⟨by decide,
    setupObjects_version_frame_sync_key scenarioBView [scenarioBState] (by decide)
      (by decide) scenarioBState (by decide) scenarioBDrawn (by decide) (by decide)
      (by decide)⟩

theorem deactivateAttribute_clientID_eq (s : ViewState) :
    (deactivateAttribute s).1.activeElement.clientID = s.activeElement.clientID := by
  unfold deactivateAttribute
  cases hcl : s.activeElement.clientID <;> cases ha : s.activeElement.attributeID <;>
    simp [hcl, ha]

theorem deactivate_ops_mem (s : ViewState) (c : Nat)
    (h : s.activeElement.clientID = some c) :
    SceneOp.deactivateShapeOp c ∈ (deactivate s).2 := by
  unfold deactivate
  dsimp only []
  refine List.mem_append.mpr (Or.inr ?_)
  unfold deactivateShape
  cases hx : (deactivateAttribute s).1.activeElement.clientID with
  | none =>
    rw [deactivateAttribute_clientID_eq, h] at hx
    cases hx
  | some c' =>
    rw [deactivateAttribute_clientID_eq, h] at hx
    have hcc : c = c' := Option.some_inj.mp hx
    subst hcc
    dsimp only []
    exact List.mem_append.mpr (Or.inl (List.mem_append.mpr (Or.inl (List.mem_singleton.mpr rfl))))

/-- Claim C5: whenever a reconciliation pass performs any mutation and
an element is active, the pass starts with the deactivation block — the
whole deactivation precedes every primitive deletion/creation/patch
(the deactivation block itself contains no reconciliation mutation and
does strip the active shape); the previously active identifier is
reactivated at the end of the pass exactly when the controller's active
identifier is still present in the incoming list, and when it is not
(in particular after reconciling the empty list) the view's
ActiveElement ends as clientID null / attributeID null. -/
theorem setupObjects_deactivates_first (s : ViewState) (L : List ObjectState)
    (hcond : (deletedOf s.drawnStates L).length ≠ 0 ∨
      (updatedOf s.drawnStates L).length ≠ 0 ∨ (createdOf s.drawnStates L).length ≠ 0)
    (cid : Nat) (hact : s.activeElement.clientID = some cid) :
    (∃ rest, (setupObjects s L).2 = (deactivate s).2 ++ rest ∧
      SceneOp.deactivateShapeOp cid ∈ (deactivate s).2 ∧
      ∀ op ∈ (deactivate s).2, mutTarget op = none) ∧
    (setupObjects s L).1.activeElement.clientID =
      (match s.controllerActiveElement.clientID with
        | some c => if c ∈ clientIDs L then some c else none
        | none => none) ∧
    (∀ c, s.controllerActiveElement.clientID = some c → c ∉ clientIDs L →
      (setupObjects s L).1.activeElement = ⟨none, none⟩) ∧
    (s.controllerActiveElement.clientID = none →
      (setupObjects s L).1.activeElement = ⟨none, none⟩) := by
  refine ⟨?_, ?_, ?_, ?_⟩
  · obtain ⟨rest, hrest⟩ := setupObjects_ops_start s L hcond cid hact
    exact ⟨rest, hrest, deactivate_ops_mem s cid hact, deactivate_ops s⟩
  · exact setupObjects_activeElement_clientID s L hcond cid hact
  · intro c hc hnotin
    refine setupObjects_activeElement_cleared s L hcond cid hact ?_
    intro c' hc'
    rw [hc] at hc'
    rwa [← Option.some_inj.mp hc']
  · intro hc
    refine setupObjects_activeElement_cleared s L hcond cid hact ?_
    intro c' hc'
    rw [hc] at hc'
    cases hc'

/-- Scenario C view: object 1 drawn and active (both in the view and in
the controller), then the empty list is reconciled. -/
def scenarioCView : ViewState :=
  ⟨[(1, scenarioBDrawn)], [1], [], ⟨some 1, none⟩, ⟨some 1, none⟩, false, false⟩

/-- Witness for C5 at Scenario C: activate clientID 1, reconcile [] —
deactivation precedes the deletion and ActiveElement ends
{clientID: null, attributeID: null}. -/
theorem setupObjects_deactivates_first_witness :
    (∃ rest, (setupObjects scenarioCView []).2 = (deactivate scenarioCView).2 ++ rest ∧
      SceneOp.deactivateShapeOp 1 ∈ (deactivate scenarioCView).2 ∧
      ∀ op ∈ (deactivate scenarioCView).2, mutTarget op = none) ∧
    (setupObjects scenarioCView []).1.activeElement.clientID =
      (match scenarioCView.controllerActiveElement.clientID with
        | some c => if c ∈ clientIDs [] then some c else none
        | none => none) ∧
    (∀ c, scenarioCView.controllerActiveElement.clientID = some c → c ∉ clientIDs [] →
      (setupObjects scenarioCView []).1.activeElement = ⟨none, none⟩) ∧
    (scenarioCView.controllerActiveElement.clientID = none →
      (setupObjects scenarioCView []).1.activeElement = ⟨none, none⟩) :=
  setupObjects_deactivates_first scenarioCView [] (by decide) 1 (by decide)

/-- Claim C3 counterexample: from IDLE a DRAW enable notification enters
the busy DRAW mode; a MERGE enable notification then moves straight to
the busy MERGE mode while DRAW is still busy — a new busy mode is
entered although the previous mode never returned to IDLE (the MERGE
branch of notify sets the mode whenever data.enabled is true, with no
IDLE check). -/
theorem notifyModeStep_mode_stacking_cex :
    notifyModeStep Mode.idle Reason.draw ⟨true, false⟩ = Mode.draw ∧
      notifyModeStep Mode.draw Reason.merge ⟨true, false⟩ = Mode.merge ∧
      Mode.draw ∈ busyModes ∧ Mode.merge ∈ busyModes ∧
      Mode.draw ≠ Mode.idle ∧ Mode.merge ≠ Mode.draw := by
  decide

/-- Claim C3 (amended): the notify mode machine never stacks into a busy
mode except through the unguarded MERGE / SPLIT / GROUP enable branches:
whenever a notification changes the mode to a busy mode, either the
previous mode was IDLE (the DRAW and INTERACT entries are guarded by an
explicit IDLE check) or the reason was MERGE, SPLIT or GROUP, whose
enable branches set the mode unconditionally. -/
theorem notifyModeStep_busy_entry (m : Mode) (r : Reason) (d : NotifyData)
    (hchange : notifyModeStep m r d ≠ m) (hbusy : notifyModeStep m r d ∈ busyModes) :
    m = Mode.idle ∨ r = Reason.merge ∨ r = Reason.split ∨ r = Reason.group := by
  obtain ⟨e, i⟩ := d
  revert hchange hbusy
  cases e <;> cases i <;> cases m <;> cases r <;> decide

/-- Witness for the amended C3: entering DRAW from IDLE. -/
theorem notifyModeStep_busy_entry_witness :
    Mode.idle = Mode.idle ∨ Reason.draw = Reason.merge ∨ Reason.draw = Reason.split ∨
      Reason.draw = Reason.group :=
  notifyModeStep_busy_entry Mode.idle Reason.draw ⟨true, false⟩ (by decide) (by decide)

/-- Claim C4: for every busy mode, the CANCEL branch of notify invokes
the active handler's cancel() (dispatching canvas.dragstop for
DRAG_CANVAS; for ZOOM_CANVAS cancelling the zoom handler and dispatching
canvas.zoomstop), and afterwards the mode is IDLE and the default
cursor (empty cursor style) is restored. -/
theorem processCancel_busy_modes :
    processCancel Mode.draw =
      ([CancelAction.handlerCancel HandlerKind.drawHandler], Mode.idle, "") ∧
    processCancel Mode.merge =
      ([CancelAction.handlerCancel HandlerKind.mergeHandler], Mode.idle, "") ∧
    processCancel Mode.split =
      ([CancelAction.handlerCancel HandlerKind.splitHandler], Mode.idle, "") ∧
    processCancel Mode.group =
      ([CancelAction.handlerCancel HandlerKind.groupHandler], Mode.idle, "") ∧
    processCancel Mode.interact =
      ([CancelAction.handlerCancel HandlerKind.interactionHandler], Mode.idle, "") ∧
    processCancel Mode.selectRegion =
      ([CancelAction.handlerCancel HandlerKind.regionSelector], Mode.idle, "") ∧
    processCancel Mode.dragCanvas =
      ([CancelAction.dispatchEvent "canvas.dragstop"], Mode.idle, "") ∧
    processCancel Mode.zoomCanvas =
      ([CancelAction.handlerCancel HandlerKind.zoomHandler,
        CancelAction.dispatchEvent "canvas.zoomstop"], Mode.idle, "") := by
  refine ⟨rfl, rfl, rfl, rfl, rfl, rfl, rfl, rfl⟩

/-- Claim C6: onDrawDone with null data and no continuation flag
dispatches exactly one canvas.canceled (and no canvas.drawn), returns
the mode to IDLE and issues the draw-disable notification; with the
continuation flag set it dispatches nothing, leaves the mode untouched
and issues no disable notification. -/
theorem onDrawDone_null_data (objects : List ObjectState) (zOrder : Int) (duration : Nat) :
    onDrawDone objects zOrder none duration false =
      ⟨[Event.canceled], some Mode.idle, true⟩ ∧
      onDrawDone objects zOrder none duration true = ⟨[], none, false⟩ :=
  ⟨rfl, rfl⟩

/-- Claim C10: a draw completion whose payload carries a numeric
clientID (a redraw of an existing object) dispatches canvas.canceled and
then routes through onEditDone — dispatching canvas.edited with the
looked-up existing state, the new points and that state's rotation — and
never dispatches canvas.drawn for that completion; onEditDone returns
the mode to IDLE. -/
theorem onDrawDone_redraw_routes_to_edit (objects : List ObjectState) (zOrder : Int)
    (duration : Nat) (continueDraw : Bool) (cid : Nat) (d : DrawData)
    (hcid : d.clientID = some cid) (st : ObjectState)
    (hfind : objects.find? (fun u => u.clientID == cid) = some st) :
    (onDrawDone objects zOrder (some d) duration continueDraw).events =
      [Event.canceled, Event.edited st (drawDonePoints d) st.rotation] ∧
      (onDrawDone objects zOrder (some d) duration continueDraw).finalMode =
        some Mode.idle ∧
      ∀ d' z' c' t', Event.drawn d' z' c' t' ∉
        (onDrawDone objects zOrder (some d) duration continueDraw).events := by
  have hmain : onDrawDone objects zOrder (some d) duration continueDraw =
      ⟨[Event.canceled, Event.edited st (drawDonePoints d) st.rotation],
        some Mode.idle, false⟩ := by
    obtain ⟨dcid, dshape, dpts, dels⟩ := d
    have hc : dcid = some cid := hcid
    subst hc
    unfold onDrawDone
    dsimp only []
    rw [hfind]
    rfl
  rw [hmain]
  refine ⟨rfl, rfl, ?_⟩
  intro d' z' c' t' hmem
  rcases List.mem_cons.mp hmem with h | h
  · cases h
  · rcases List.mem_cons.mp h with h' | h'
    · cases h'
    · cases h'

/-- Witness for C10: redrawing object 1 with new points [0,0,20,20]. -/
theorem onDrawDone_redraw_routes_to_edit_witness :
    (onDrawDone [scenarioBState] 0 (some ⟨some 1, "rectangle", some [0, 0, 20, 20], []⟩)
        4 false).events =
      [Event.canceled, Event.edited scenarioBState
        (drawDonePoints ⟨some 1, "rectangle", some [0, 0, 20, 20], []⟩)
        scenarioBState.rotation] ∧
      (onDrawDone [scenarioBState] 0 (some ⟨some 1, "rectangle", some [0, 0, 20, 20], []⟩)
        4 false).finalMode = some Mode.idle ∧
      ∀ d' z' c' t', Event.drawn d' z' c' t' ∉
        (onDrawDone [scenarioBState] 0
          (some ⟨some 1, "rectangle", some [0, 0, 20, 20], []⟩) 4 false).events :=
  onDrawDone_redraw_routes_to_edit [scenarioBState] 0 4 false 1
    ⟨some 1, "rectangle", some [0, 0, 20, 20], []⟩ rfl scenarioBState (by decide)

/-- Claim C7: translatePointsFromRotatedShape restores the shape's
rotation on every execution path.  The rotate-call trace is always the
entry cancellation (angle 0) followed by the finally-block restoration
with the originally read rotation and the same center arguments, and
the shape's rotation after the call equals the rotation before it —
regardless of whether the point mapping succeeded or threw (the result
component is not inspected anywhere). -/
theorem translatePointsFromRotatedShape_restores (shapeRotation : ℚ)
    (mapPoint : ℚ × ℚ → Except Unit (ℚ × ℚ)) (points : List (ℚ × ℚ))
    (c : Option (ℚ × ℚ)) :
    (translatePointsFromRotatedShape shapeRotation mapPoint points c).2.1 = shapeRotation ∧
      (translatePointsFromRotatedShape shapeRotation mapPoint points c).2.2 =
        [⟨0, c⟩, ⟨shapeRotation, c⟩] ∧
      (∀ e, (translatePointsFromRotatedShape shapeRotation mapPoint points c).1 =
        Except.error e →
        (translatePointsFromRotatedShape shapeRotation mapPoint points c).2.1 =
          shapeRotation) :=
  ⟨rfl, rfl, fun _ _ => rfl⟩

/-- Witness for C7 on the exceptional path: the point mapping throws,
yet the rotation 37 is restored with the same center (5, 6). -/
theorem translatePointsFromRotatedShape_restores_witness :
    (translatePointsFromRotatedShape 37 (fun _ => Except.error ()) [(1, 2)]
        (some (5, 6))).1 = Except.error () ∧
      (translatePointsFromRotatedShape 37 (fun _ => Except.error ()) [(1, 2)]
        (some (5, 6))).2.1 = 37 ∧
      (translatePointsFromRotatedShape 37 (fun _ => Except.error ()) [(1, 2)]
        (some (5, 6))).2.2 = [⟨0, some (5, 6)⟩, ⟨37, some (5, 6)⟩] :=
  ⟨rfl,
    (translatePointsFromRotatedShape_restores 37 (fun _ => Except.error ()) [(1, 2)]
      (some (5, 6))).2.2 () rfl,
    (translatePointsFromRotatedShape_restores 37 (fun _ => Except.error ()) [(1, 2)]
      (some (5, 6))).2.1⟩

theorem addLoop_nonneg (r : ℚ) : 0 ≤ addLoop r := by
  have H : ∀ n : Nat, ∀ r : ℚ, (⌈-r / 360⌉).toNat ≤ n → 0 ≤ addLoop r := by
    intro n
    induction n with
    | zero =>
      intro r hr
      have hr0 : 0 ≤ r := by
        by_contra hneg
        push_neg at hneg
        have h1 : (0 : ℚ) < -r / 360 := by
          have : (0 : ℚ) < -r := by linarith
          positivity
        have h2 : 0 < ⌈-r / 360⌉ := Int.ceil_pos.mpr h1
        omega
      unfold addLoop
      rw [dif_neg (not_lt.mpr hr0)]
      exact hr0
    | succ n ih =>
      intro r hr
      unfold addLoop
      by_cases h : r < 0
      · rw [dif_pos h]
        apply ih
        have h2 : ⌈-(r + 360) / 360⌉ = ⌈-r / 360⌉ - 1 := by
          have heq : -(r + 360) / 360 = -r / 360 - 1 := by ring
          rw [heq, Int.ceil_sub_one]
        have h3 : 0 < ⌈-r / 360⌉ := by
          refine Int.ceil_pos.mpr ?_
          have : (0 : ℚ) < -r := by linarith
          positivity
        omega
      · rw [dif_neg h]
        linarith [not_lt.mp h]
  exact H _ r le_rfl

theorem jsMod_bounds (x : ℚ) (hx : 0 ≤ x) : 0 ≤ jsMod x 360 ∧ jsMod x 360 < 360 := by
  unfold jsMod jsTrunc
  have hx360 : 0 ≤ x / 360 := by positivity
  rw [if_pos hx360]
  have h1 : (⌊x / 360⌋ : ℚ) ≤ x / 360 := Int.floor_le _
  have h2 : x / 360 < ⌊x / 360⌋ + 1 := Int.lt_floor_add_one _
  constructor
  · linarith
  · linarith

/-- The direction-arrow angle for coincident points is 90 degrees: the
zero-length guard keeps cosinus at 0, acos(0) is pi/2, the zero sign is
replaced by 1, and pi/2 scaled by 180/pi is 90. -/
theorem showDirectionAngle_self (p : ℝ × ℝ) : showDirectionAngle p p = 90 := by
  unfold showDirectionAngle vectorLength scalarProduct signOrOne jsSign
  simp only [sub_self]
  norm_num [Real.sqrt_zero, Real.arccos_zero]
  field_simp
  ring

/-- Claim C8 counterexample: the claim says a zero-length direction
vector yields angle 0 by convention; the code yields 90 (acos of the
guarded cosinus 0 is pi/2, scaled to degrees), which is not 0. -/
theorem showDirectionAngle_coincident_cex :
    showDirectionAngle ((0 : ℝ), (0 : ℝ)) ((0 : ℝ), (0 : ℝ)) = 90 ∧ (90 : ℝ) ≠ 0 := by
  constructor
  · exact showDirectionAngle_self ((0 : ℝ), (0 : ℝ))
  · norm_num

/-- Claim C8 (amended): every rotation reported by the resize-done
completion is normalized into [0, 360) (the while loop raises negative
angles, then the % operator reduces below 360), and the direction-arrow
angle computed from two coincident points is 90 degrees — a definite
number, never NaN — not 0 as the claim stated. -/
theorem angle_numeric_policy :
    (∀ r : ℚ, 0 ≤ normalizeResizedRotation r ∧ normalizeResizedRotation r < 360) ∧
      ∀ p : ℝ × ℝ, showDirectionAngle p p = 90 := by
  constructor
  · intro r
    unfold normalizeResizedRotation
    exact jsMod_bounds (addLoop r) (addLoop_nonneg r)
  · exact showDirectionAngle_self

/-- Claim C9 counterexample: activating identifier 2, which is not in
the object list, while object 1 is active and drawn, is not
scene-neutral — the previously active shape is deactivated first, so
operations are emitted (in particular deactivateShapeOp 1): "returns
without changing the scene" fails as a universal statement. -/
theorem activate_missing_id_cex :
    (2 ∉ [scenarioBState].map ObjectState.clientID) ∧
      (activate scenarioCView [scenarioBState] ⟨some 2, none⟩).2 ≠ [] ∧
      SceneOp.deactivateShapeOp 1 ∈
        (activate scenarioCView [scenarioBState] ⟨some 2, none⟩).2 := by
  decide

/-- Claim C9 (amended): activation invariant violations are no-ops on
the activation itself, never exceptions: (1) activateShape on an
identifier missing from the current object list returns before any
scene mutation or canvas.activated dispatch; (2) a full activate call
for a missing identifier when nothing was active emits no operation at
all — though the requested clientID is still recorded as active — while
a previously active different element is still deactivated first (a
scene change, see the counterexample); (3) double-activation (same
clientID, same attributeID) is a complete no-op: activateShape is not
re-run, nothing is emitted, the state is unchanged. -/
theorem activation_invariant_noops (s : ViewState) (objects : List ObjectState)
    (cid : Nat) :
    (cid ∉ objects.map ObjectState.clientID →
      activateShape s objects cid = (s, [])) ∧
    (cid ∉ objects.map ObjectState.clientID → s.activeElement = ⟨none, none⟩ →
      (activate s objects ⟨some cid, none⟩).2 = [] ∧
        (activate s objects ⟨some cid, none⟩).1 =
          { s with activeElement := ⟨some cid, none⟩ }) ∧
    (s.activeElement.clientID = some cid →
      activate s objects s.activeElement = (s, [])) := by
  have hfind : cid ∉ objects.map ObjectState.clientID →
      objects.find? (fun st => st.clientID == cid) = none := by
    intro hmiss
    rw [List.find?_eq_none]
    intro st hst hbeq
    have heq : st.clientID = cid := by simpa using hbeq
    exact hmiss (heq ▸ List.mem_map_of_mem _ hst)
  refine ⟨?_, ?_, ?_⟩
  · intro hmiss
    unfold activateShape
    rw [hfind hmiss]
  · intro hmiss hAE
    have hshape : activateShape s objects cid = (s, []) := by
      unfold activateShape
      rw [hfind hmiss]
    have hb1 : activateBlock1 s ⟨some cid, none⟩ = (s, []) := by
      unfold activateBlock1
      rw [hAE]
    have hb2 : activateBlock2 s objects cid =
        ({ s with activeElement := ⟨some cid, none⟩ }, []) := by
      unfold activateBlock2
      rw [if_pos (by rw [hAE]; exact fun hh => Option.noConfusion hh), hshape]
      dsimp only []
      rw [hAE]
    unfold activate
    dsimp only []
    rw [hb1]
    dsimp only []
    rw [hb2]
    dsimp only []
    unfold activateBlock3
    dsimp only []
    exact ⟨rfl, rfl⟩
  · intro hsame
    have hb1 : activateBlock1 s s.activeElement = (s, []) := by
      unfold activateBlock1
      rw [hsame]
      dsimp only []
      rw [if_neg (fun hh => hh rfl), if_neg (fun hh => hh rfl)]
    unfold activate
    rw [hsame]
    dsimp only []
    rw [hb1]
    dsimp only []
    have hb2 : activateBlock2 s objects cid = (s, []) := by
      unfold activateBlock2
      rw [if_neg (by rw [hsame]; exact fun hh => hh rfl)]
    rw [hb2]
    dsimp only []
    unfold activateBlock3
    cases ha : s.activeElement.attributeID with
    | none => rfl
    | some a =>
      dsimp only []
      rw [if_neg (fun hh => hh rfl)]
      rfl

/-- Witness for the amended C9: identifier 2 is missing from the list
containing only object 1 (parts 1 and 2 at an empty view), and
double-activating the already active identifier 1 is a no-op (part 3
at Scenario C's view, where object 1 is active). -/
theorem activation_invariant_noops_witness :
    activateShape emptyView [scenarioBState] 2 = (emptyView, []) ∧
      (activate emptyView [scenarioBState] ⟨some 2, none⟩).2 = [] ∧
      activate scenarioCView [scenarioBState] scenarioCView.activeElement =
        (scenarioCView, []) :=
  ⟨(activation_invariant_noops emptyView [scenarioBState] 2).1 (by decide),
    ((activation_invariant_noops emptyView [scenarioBState] 2).2.1 (by decide)
      (by decide)).1,
    (activation_invariant_noops scenarioCView [scenarioBState] 1).2.2 (by decide)⟩

end CanvasView
